import Mathlib

/-!
Nicira / ONF experimenter messages of `openflow13/nxt_message.go`.

A shallow embedding of the binary codec in `src/openflow13/nxt_message.go`.

* A Go `[]byte` argument is a `Slice`: the `len` visible bytes plus the bytes of
  the backing array between `len` and `cap` (slicing `s[lo:hi]` is bounded by
  `cap`, indexing and `s[lo:]` by `len`).
* Buffers produced by `make([]byte, n)` have `cap = len` and are plain lists.
* Unsigned machine integers are natural numbers; a value of type `uintN` is
  well formed when it is below `2^N`.
* A Go call ends in one of three ways: it returns without error, it returns an
  error, or it panics (index or slice bound out of range, nil dereference).
* Pointer receivers are modelled by state passing: a method that mutates its
  receiver returns the receiver as it stands when the call ends.
-/

namespace Openflow13

/-! ## Outcomes of a Go call -/

/-- Run-time panics the code can raise. -/
inductive GoPanic where
  | indexOutOfRange
  | sliceBoundsOutOfRange
  | nilDereference
  deriving DecidableEq, Repr

/-- Error values returned by the code, one constructor for each `errors.New` text
(the text of `GetFlowEviction.UnmarshalBinary` is the one of `SetFlowEviction`). -/
inductive GoError where
  | shortControllerID
  | shortTLVTableMap
  | shortTLVTableMod
  | shortSetFlowEviction
  | shortInstrHeader
  | notSupported
  | external (code : Nat)
  deriving DecidableEq, Repr

/-- Outcome of a call that returns `(value, error)`. -/
inductive Res (α : Type) where
  | ok (a : α)
  | error (e : GoError)
  | panic (p : GoPanic)
  deriving DecidableEq, Repr

/-- Outcome of a call that returns only `error`. -/
inductive Status where
  | ok
  | error (e : GoError)
  | panic (p : GoPanic)
  deriving DecidableEq, Repr

/-! ## Byte slices -/

/-- Go byte slice: `bytes` are the elements below `len`, `spare` the elements of
the backing array from `len` up to `cap`. -/
structure Slice where
  bytes : List Nat
  spare : List Nat := []
  deriving DecidableEq, Repr

/-- Go `len(s)`. -/
def Slice.len (s : Slice) : Nat := s.bytes.length

/-- Go `cap(s)`. -/
def Slice.cap (s : Slice) : Nat := s.bytes.length + s.spare.length

/-- All bytes of a slice are 8-bit values. -/
def Slice.WF (s : Slice) : Prop := (∀ b ∈ s.bytes, b < 256) ∧ (∀ b ∈ s.spare, b < 256)

/-- Go `s[lo:]`: the upper bound defaults to `len(s)`, so `lo ≤ len(s)` is required. -/
def Slice.sliceFrom (s : Slice) (lo : Nat) : Except GoPanic Slice :=
  if lo ≤ s.len then .ok ⟨s.bytes.drop lo, s.spare⟩ else .error .sliceBoundsOutOfRange

/-- Go `s[lo:hi]`: requires `lo ≤ hi ≤ cap(s)`. -/
def Slice.slice (s : Slice) (lo hi : Nat) : Except GoPanic Slice :=
  if lo ≤ hi ∧ hi ≤ s.cap then
    .ok ⟨((s.bytes ++ s.spare).take hi).drop lo, (s.bytes ++ s.spare).drop hi⟩
  else .error .sliceBoundsOutOfRange

/-- Go `s[i]` as an rvalue. -/
def Slice.index (s : Slice) (i : Nat) : Except GoPanic Nat :=
  if i < s.len then .ok (s.bytes.getD i 0) else .error .indexOutOfRange

/-- Go `binary.BigEndian.Uint16(b)`: bounds check `_ = b[1]`, then
`uint16(b[1]) | uint16(b[0])<<8`. -/
def BigEndian.Uint16 (b : Slice) : Except GoPanic Nat :=
  if 1 < b.len then .ok (b.bytes.getD 1 0 ||| (b.bytes.getD 0 0 <<< 8))
  else .error .indexOutOfRange

/-- Go `binary.BigEndian.Uint32(b)`: bounds check `_ = b[3]`, then
`uint32(b[3]) | uint32(b[2])<<8 | uint32(b[1])<<16 | uint32(b[0])<<24`. -/
def BigEndian.Uint32 (b : Slice) : Except GoPanic Nat :=
  if 3 < b.len then
    .ok (b.bytes.getD 3 0 ||| (b.bytes.getD 2 0 <<< 8) ||| (b.bytes.getD 1 0 <<< 16)
      ||| (b.bytes.getD 0 0 <<< 24))
  else .error .indexOutOfRange

/-- Go `binary.BigEndian.Uint16(data[n:])`. -/
def uint16At (data : Slice) (n : Nat) : Except GoPanic Nat :=
  match data.sliceFrom n with
  | .ok b => BigEndian.Uint16 b
  | .error p => .error p

/-- Go `binary.BigEndian.Uint32(data[n:])`. -/
def uint32At (data : Slice) (n : Nat) : Except GoPanic Nat :=
  match data.sliceFrom n with
  | .ok b => BigEndian.Uint32 b
  | .error p => .error p

/-! ## Buffers written by the encoders -/

/-- Go `make([]byte, n)`. -/
def makeBytes (n : Nat) : List Nat := List.replicate n 0

/-- Go `binary.BigEndian.PutUint16(data[n:], v)` on a buffer with `cap = len`:
`data[n:]` needs `n ≤ len`, the bounds check `_ = b[1]` needs two bytes, then
`b[0] = byte(v >> 8)` and `b[1] = byte(v)` are written through the alias. -/
def putUint16At (data : List Nat) (n v : Nat) : Except GoPanic (List Nat) :=
  if n ≤ data.length then
    if 1 < data.length - n then
      .ok ((data.set n ((v >>> 8) % 256)).set (n + 1) (v % 256))
    else .error .indexOutOfRange
  else .error .sliceBoundsOutOfRange

/-- Go `binary.BigEndian.PutUint32(data[n:], v)` on a buffer with `cap = len`. -/
def putUint32At (data : List Nat) (n v : Nat) : Except GoPanic (List Nat) :=
  if n ≤ data.length then
    if 3 < data.length - n then
      .ok ((((data.set n ((v >>> 24) % 256)).set (n + 1) ((v >>> 16) % 256)).set (n + 2)
        ((v >>> 8) % 256)).set (n + 3) (v % 256))
    else .error .indexOutOfRange
  else .error .sliceBoundsOutOfRange

/-- Go `data[n] = v` for a byte value `v`. -/
def setByte (data : List Nat) (n v : Nat) : Except GoPanic (List Nat) :=
  if n < data.length then .ok (data.set n v) else .error .indexOutOfRange

/-- Go `copy(dst, src)`: `min(len(dst), len(src))` bytes of `src` overwrite the
front of `dst`. -/
def copyBytes (dst src : List Nat) : List Nat :=
  src.take dst.length ++ dst.drop src.length

/-- Go `copy(data[n:], src)` on a buffer with `cap = len`: `data[n:]` needs
`n ≤ len`, the copy is written through the alias. -/
def copyAt (data : List Nat) (n : Nat) (src : List Nat) : Except GoPanic (List Nat) :=
  if n ≤ data.length then .ok (data.take n ++ copyBytes (data.drop n) src)
  else .error .sliceBoundsOutOfRange

/-! ## ControllerID

The unexported `pad` arrays of `ControllerID`, `TLVTableMap`, `TLVTableMod`,
`SetFlowEviction`, `GetFlowEviction` and `EvictionImportanceInstruction` are never
written by any code of the file, so they are zero in every value and carry no
state; their lengths enter `Len` as the constants of the array types. -/

/-- Go `type ControllerID struct { pad [6]byte; ID uint16 }`. -/
structure ControllerID where
  ID : Nat := 0
  deriving DecidableEq, Repr

/-- Go `(*ControllerID).Len`: `uint16(len(c.pad) + 2)`. -/
def ControllerID.Len (_c : ControllerID) : Nat := (6 + 2) % 65536

/-- Go `(*ControllerID).MarshalBinary`. -/
def ControllerID.MarshalBinary (c : ControllerID) : Res (List Nat) :=
  let data := makeBytes c.Len
  match putUint16At data 6 c.ID with
  | .ok data => .ok data
  | .error p => .panic p

/-- Go `(*ControllerID).UnmarshalBinary`. -/
def ControllerID.UnmarshalBinary (c : ControllerID) (data : Slice) : ControllerID × Status :=
  if data.len < c.Len then (c, .error .shortControllerID)
  else
    match uint16At data 6 with
    | .ok v => ({ c with ID := v }, .ok)
    | .error p => (c, .panic p)

/-! ## SetFlowEviction and GetFlowEviction -/

/-- Go `type SetFlowEviction struct { TableID uint8; EvictionEnabled bool; pad [6]byte }`. -/
structure SetFlowEviction where
  TableID : Nat := 0
  EvictionEnabled : Bool := false
  deriving DecidableEq, Repr

/-- Go `(*SetFlowEviction).Len`: `uint16(2 + len(e.pad))`. -/
def SetFlowEviction.Len (_e : SetFlowEviction) : Nat := (2 + 6) % 65536

/-- Go `(*SetFlowEviction).MarshalBinary`. -/
def SetFlowEviction.MarshalBinary (e : SetFlowEviction) : Res (List Nat) :=
  let data := makeBytes e.Len
  match setByte data 0 e.TableID with
  | .error p => .panic p
  | .ok data =>
    match setByte data 1 (if e.EvictionEnabled then 1 else 0) with
    | .error p => .panic p
    | .ok data => .ok data

/-- Go `(*SetFlowEviction).UnmarshalBinary`. -/
def SetFlowEviction.UnmarshalBinary (e : SetFlowEviction) (data : Slice) :
    SetFlowEviction × Status :=
  if data.len < e.Len then (e, .error .shortSetFlowEviction)
  else
    match data.index 0 with
    | .error p => (e, .panic p)
    | .ok b0 =>
      let e := { e with TableID := b0 }
      match data.index 1 with
      | .error p => (e, .panic p)
      | .ok b1 => ({ e with EvictionEnabled := (b1 != 0) }, .ok)

/-- Go `type GetFlowEviction struct { TableID uint8; pad [7]byte }`. -/
structure GetFlowEviction where
  TableID : Nat := 0
  deriving DecidableEq, Repr

/-- Go `(*GetFlowEviction).Len`: `uint16(1 + len(e.pad))`. -/
def GetFlowEviction.Len (_e : GetFlowEviction) : Nat := (1 + 7) % 65536

/-- Go `(*GetFlowEviction).MarshalBinary`. -/
def GetFlowEviction.MarshalBinary (e : GetFlowEviction) : Res (List Nat) :=
  let data := makeBytes e.Len
  match setByte data 0 e.TableID with
  | .error p => .panic p
  | .ok data => .ok data

/-- Go `(*GetFlowEviction).UnmarshalBinary`; the error text is the one of
`SetFlowEviction`. -/
def GetFlowEviction.UnmarshalBinary (e : GetFlowEviction) (data : Slice) :
    GetFlowEviction × Status :=
  if data.len < e.Len then (e, .error .shortSetFlowEviction)
  else
    match data.index 0 with
    | .error p => (e, .panic p)
    | .ok b0 => ({ e with TableID := b0 }, .ok)

/-! ## TLVTableMap, TLVTableMod and TLVTableReply

The elements of `TlvMaps []*TLVTableMap` are taken to be non-nil and unshared. -/

/-- Go `type TLVTableMap struct { OptClass uint16; OptType uint8; OptLength uint8;
Index uint16; pad [2]byte }`. -/
structure TLVTableMap where
  OptClass : Nat := 0
  OptType : Nat := 0
  OptLength : Nat := 0
  Index : Nat := 0
  deriving DecidableEq, Repr

/-- Field values of a `TLVTableMap` fit their Go types. -/
def TLVTableMap.WF (t : TLVTableMap) : Prop :=
  t.OptClass < 65536 ∧ t.OptType < 256 ∧ t.OptLength < 256 ∧ t.Index < 65536

/-- Go `(*TLVTableMap).Len`: `uint16(len(t.pad) + 6)`. -/
def TLVTableMap.Len (_t : TLVTableMap) : Nat := (2 + 6) % 65536

/-- Go `(*TLVTableMap).MarshalBinary`. -/
def TLVTableMap.MarshalBinary (t : TLVTableMap) : Res (List Nat) :=
  let data := makeBytes t.Len
  match putUint16At data 0 t.OptClass with
  | .error p => .panic p
  | .ok data =>
    match setByte data 2 t.OptType with
    | .error p => .panic p
    | .ok data =>
      match setByte data 3 t.OptLength with
      | .error p => .panic p
      | .ok data =>
        match putUint16At data 4 t.Index with
        | .error p => .panic p
        | .ok data => .ok data

/-- Go `(*TLVTableMap).UnmarshalBinary`. -/
def TLVTableMap.UnmarshalBinary (t : TLVTableMap) (data : Slice) : TLVTableMap × Status :=
  if data.len < t.Len then (t, .error .shortTLVTableMap)
  else
    match uint16At data 0 with
    | .error p => (t, .panic p)
    | .ok c =>
      let t := { t with OptClass := c }
      match data.index 2 with
      | .error p => (t, .panic p)
      | .ok ty =>
        let t := { t with OptType := ty }
        match data.index 3 with
        | .error p => (t, .panic p)
        | .ok ln =>
          let t := { t with OptLength := ln }
          match uint16At data 4 with
          | .error p => (t, .panic p)
          | .ok i => ({ t with Index := i }, .ok)

/-- Go `length := uint16(base); for _, tlvMap := range maps { length += tlvMap.Len() }`,
the body of `TLVTableMod.Len` (`base = 8`) and `TLVTableReply.Len` (`base = 16`);
the addition is the one of `uint16`. -/
def tlvMapsLen (base : Nat) (maps : List TLVTableMap) : Nat :=
  maps.foldl (fun length tlvMap => (length + tlvMap.Len) % 65536) base

/-- Go loop `for _, tlvMap := range t.TlvMaps { tlvData, err := tlvMap.MarshalBinary();
if err != nil { return nil, err }; copy(data[n:], tlvData); n += len(tlvData) }`
followed by `return data, nil`, shared by both `MarshalBinary` methods. -/
def marshalTlvMaps : List TLVTableMap → List Nat → Nat → Res (List Nat)
  | [], data, _ => .ok data
  | tlvMap :: rest, data, n =>
    match tlvMap.MarshalBinary with
    | .error e => .error e
    | .panic p => .panic p
    | .ok tlvData =>
      match copyAt data n tlvData with
      | .error p => .panic p
      | .ok data => marshalTlvMaps rest data (n + tlvData.length)

/-- Go loop `for n < len(data) { tlvMap := new(TLVTableMap);
err := tlvMap.UnmarshalBinary(data[n:]); if err != nil { return err };
n += int(tlvMap.Len()); t.TlvMaps = append(t.TlvMaps, tlvMap) }` followed by
`return nil`, shared by both `UnmarshalBinary` methods. The result is the option
list of the receiver when the call ends. `fuel` bounds the number of iterations;
the bound `len(data) - n < fuel` is carried along, so the loop never runs out. -/
def unmarshalTlvMaps (data : Slice) :
    (fuel : Nat) → (n : Nat) → data.len - n < fuel → List TLVTableMap →
      List TLVTableMap × Status
  | 0, _, h, _ => absurd h (Nat.not_lt_zero _)
  | fuel + 1, n, h, maps =>
    if hn : n < data.len then
      match data.sliceFrom n with
      | .error p => (maps, .panic p)
      | .ok sub =>
        match TLVTableMap.UnmarshalBinary {} sub with
        | (_, .error e) => (maps, .error e)
        | (_, .panic p) => (maps, .panic p)
        | (tlvMap, .ok) =>
          unmarshalTlvMaps data fuel (n + tlvMap.Len)
            (by simp only [TLVTableMap.Len]; omega) (maps ++ [tlvMap])
    else (maps, .ok)

/-- Go `type TLVTableMod struct { Command uint16; pad [6]byte; TlvMaps []*TLVTableMap }`. -/
structure TLVTableMod where
  Command : Nat := 0
  TlvMaps : List TLVTableMap := []
  deriving DecidableEq, Repr

/-- Go `(*TLVTableMod).Len`. -/
def TLVTableMod.Len (t : TLVTableMod) : Nat := tlvMapsLen 8 t.TlvMaps

/-- Go `(*TLVTableMod).MarshalBinary`. -/
def TLVTableMod.MarshalBinary (t : TLVTableMod) : Res (List Nat) :=
  let data := makeBytes t.Len
  match putUint16At data 0 t.Command with
  | .error p => .panic p
  | .ok data => marshalTlvMaps t.TlvMaps data (2 + 6)

/-- Go `(*TLVTableMod).UnmarshalBinary`. -/
def TLVTableMod.UnmarshalBinary (t : TLVTableMod) (data : Slice) : TLVTableMod × Status :=
  if data.len < 8 then (t, .error .shortTLVTableMod)
  else
    match uint16At data 0 with
    | .error p => (t, .panic p)
    | .ok c =>
      let r := unmarshalTlvMaps data (data.len + 1) (2 + 6) (by omega) t.TlvMaps
      ({ Command := c, TlvMaps := r.1 }, r.2)

/-- Go `type TLVTableReply struct { MaxSpace uint32; MaxFields uint16;
reserved [10]byte; TlvMaps []*TLVTableMap }`. -/
structure TLVTableReply where
  MaxSpace : Nat := 0
  MaxFields : Nat := 0
  reserved : List Nat := List.replicate 10 0
  TlvMaps : List TLVTableMap := []
  deriving DecidableEq, Repr

/-- Go `(*TLVTableReply).Len`. -/
def TLVTableReply.Len (t : TLVTableReply) : Nat := tlvMapsLen 16 t.TlvMaps

/-- Go `(*TLVTableReply).MarshalBinary`; `reserved` is not written to the buffer. -/
def TLVTableReply.MarshalBinary (t : TLVTableReply) : Res (List Nat) :=
  let data := makeBytes t.Len
  match putUint32At data 0 t.MaxSpace with
  | .error p => .panic p
  | .ok data =>
    match putUint16At data 4 t.MaxFields with
    | .error p => .panic p
    | .ok data => marshalTlvMaps t.TlvMaps data (4 + 2 + 10)

/-- Go `(*TLVTableReply).UnmarshalBinary`; there is no length check before the
reads. -/
def TLVTableReply.UnmarshalBinary (t : TLVTableReply) (data : Slice) :
    TLVTableReply × Status :=
  match uint32At data 0 with
  | .error p => (t, .panic p)
  | .ok maxSpace =>
    let t := { t with MaxSpace := maxSpace }
    match uint16At data 4 with
    | .error p => (t, .panic p)
    | .ok maxFields =>
      let t := { t with MaxFields := maxFields }
      let t := { t with reserved := makeBytes 10 }
      match data.slice 6 (6 + 10) with
      | .error p => (t, .panic p)
      | .ok src =>
        let t := { t with reserved := copyBytes t.reserved src.bytes }
        let r := unmarshalTlvMaps data (data.len + 1) (4 + 2 + 10) (by omega) t.TlvMaps
        ({ t with TlvMaps := r.1 }, r.2)

/-! ## EvictionImportanceInstruction -/

/-- Modelled from the spec: the generic instruction header `InstrHeader`, declared
outside `nxt_message.go`; the spec gives it a type and a self-reported length,
2 bytes each, 4 bytes on the wire. -/
structure InstrHeader where
  Type_ : Nat := 0
  Length : Nat := 0
  deriving DecidableEq, Repr

/-- Modelled from the spec: `(*InstrHeader).Len`, the 4 bytes of the wire layout
`instrHeader:4`. -/
def InstrHeader.Len (_a : InstrHeader) : Nat := 4

/-- Modelled from the spec: `(*InstrHeader).MarshalBinary`, type then length, both
big-endian, in a fresh buffer of `Len` bytes. -/
def InstrHeader.MarshalBinary (a : InstrHeader) : Res (List Nat) :=
  let data := makeBytes a.Len
  match putUint16At data 0 a.Type_ with
  | .error p => .panic p
  | .ok data =>
    match putUint16At data 2 a.Length with
    | .error p => .panic p
    | .ok data => .ok data

/-- Modelled from the spec: `(*InstrHeader).UnmarshalBinary`, which checks that the
buffer holds the `Len` bytes of a header before reading type and length. -/
def InstrHeader.UnmarshalBinary (a : InstrHeader) (data : Slice) : InstrHeader × Status :=
  if data.len < a.Len then (a, .error .shortInstrHeader)
  else
    match uint16At data 0 with
    | .error p => (a, .panic p)
    | .ok ty =>
      let a := { a with Type_ := ty }
      match uint16At data 2 with
      | .error p => (a, .panic p)
      | .ok ln => ({ a with Length := ln }, .ok)

/-- Go `type EvictionImportanceInstruction struct { *InstrHeader; Vendor uint32;
ExperimenterType uint32; Importance uint16; pad [4]byte }`; the embedded pointer
is `none` when nil. -/
structure EvictionImportanceInstruction where
  InstrHeader : Option InstrHeader := none
  Vendor : Nat := 0
  ExperimenterType : Nat := 0
  Importance : Nat := 0
  deriving DecidableEq, Repr

/-- Go `(*EvictionImportanceInstruction).Len`: `i.InstrHeader.Len() + 14` in `uint16`. -/
def EvictionImportanceInstruction.Len (i : EvictionImportanceInstruction) :
    Except GoPanic Nat :=
  match i.InstrHeader with
  | none => .error .nilDereference
  | some h => .ok ((h.Len + 14) % 65536)

/-- Go `(*EvictionImportanceInstruction).MarshalBinary`; the receiver is returned
because `i.Length = i.Len()` writes the embedded header. -/
def EvictionImportanceInstruction.MarshalBinary (i : EvictionImportanceInstruction) :
    EvictionImportanceInstruction × Res (List Nat) :=
  match i.Len with
  | .error p => (i, .panic p)
  | .ok len =>
    let data := makeBytes len
    match i.InstrHeader with
    | none => (i, .panic .nilDereference)
    | some h =>
      let h := { h with Length := len }
      let i := { i with InstrHeader := some h }
      match h.MarshalBinary with
      | .error e => (i, .error e)
      | .panic p => (i, .panic p)
      | .ok d =>
        let data := copyBytes data d
        let n := d.length
        match putUint32At data n i.Vendor with
        | .error p => (i, .panic p)
        | .ok data =>
          match putUint32At data (n + 4) i.ExperimenterType with
          | .error p => (i, .panic p)
          | .ok data =>
            match putUint16At data (n + 4 + 4) i.Importance with
            | .error p => (i, .panic p)
            | .ok data => (i, .ok data)

/-- Go `(*EvictionImportanceInstruction).UnmarshalBinary`; there is no length check
before `data[:4]` and the reads that follow. -/
def EvictionImportanceInstruction.UnmarshalBinary (i : EvictionImportanceInstruction)
    (data : Slice) : EvictionImportanceInstruction × Status :=
  let i := { i with InstrHeader := some {} }
  match data.slice 0 4 with
  | .error p => (i, .panic p)
  | .ok hd =>
    match InstrHeader.UnmarshalBinary {} hd with
    | (h, .error e) => ({ i with InstrHeader := some h }, .error e)
    | (h, .panic p) => ({ i with InstrHeader := some h }, .panic p)
    | (h, .ok) =>
      let i := { i with InstrHeader := some h }
      let n := 0 + h.Len
      match uint32At data n with
      | .error p => (i, .panic p)
      | .ok vendor =>
        let i := { i with Vendor := vendor }
        match uint32At data (n + 4) with
        | .error p => (i, .panic p)
        | .ok ty =>
          let i := { i with ExperimenterType := ty }
          match uint16At data (n + 4 + 4) with
          | .error p => (i, .panic p)
          | .ok importance => ({ i with Importance := importance }, .ok)

/-- Go constant `ONFIST_ET_EVICTION_IMPORTANCE`. -/
def ONFIST_ET_EVICTION_IMPORTANCE : Nat := 1920

/-- Go `NewEvictionImportanceInstruction`; the constants `InstrType_EXPERIMENTER` and
`ONF_EXPERIMENTER_ID` are declared outside `nxt_message.go` and are parameters. -/
def NewEvictionImportanceInstruction (InstrType_EXPERIMENTER ONF_EXPERIMENTER_ID : Nat)
    (importance : Nat) : EvictionImportanceInstruction :=
  let header : InstrHeader := { Type_ := InstrType_EXPERIMENTER, Length := 16 }
  { InstrHeader := some header
    Vendor := ONF_EXPERIMENTER_ID
    ExperimenterType := ONFIST_ET_EVICTION_IMPORTANCE
    Importance := importance }

/-! ## Dispatch on the experimenter type -/

/-- Go constant `Type_SetControllerId`. -/
def Type_SetControllerId : Nat := 20

/-- Go constant `Type_TlvTableMod`. -/
def Type_TlvTableMod : Nat := 24

/-- Go constant `Type_TlvTableRequest`. -/
def Type_TlvTableRequest : Nat := 25

/-- Go constant `Type_TlvTableReply`. -/
def Type_TlvTableReply : Nat := 26

/-- Go constant `ONF_ET_SET_EVICTION`. -/
def ONF_ET_SET_EVICTION : Nat := 1925

/-- Go constant `ONF_ET_GET_EVICTION_REQUEST`. -/
def ONF_ET_GET_EVICTION_REQUEST : Nat := 1926

/-- Go constant `ONF_ET_GET_EVICTION_REPLY`. -/
def ONF_ET_GET_EVICTION_REPLY : Nat := 1927

/-- Declarations that `decodeVendorData` uses and that live outside
`nxt_message.go`: the constants `Type_BundleCtrl` and `Type_BundleAdd`, the payload
types `BundleControl` and `BundleAdd`, their zero values and their
`UnmarshalBinary` methods. They are parameters of the dispatch. -/
structure BundleDecls where
  Type_BundleCtrl : Nat
  Type_BundleAdd : Nat
  BundleControl : Type
  BundleAdd : Type
  newBundleControl : BundleControl
  newBundleAdd : BundleAdd
  unmarshalBundleControl : BundleControl → Slice → BundleControl × Status
  unmarshalBundleAdd : BundleAdd → Slice → BundleAdd × Status

/-- Concrete payload behind the Go interface `util.Message` in `decodeVendorData`. -/
inductive Message (B : BundleDecls) where
  | controllerID (m : ControllerID)
  | tlvTableMod (m : TLVTableMod)
  | tlvTableReply (m : TLVTableReply)
  | bundleControl (m : B.BundleControl)
  | bundleAdd (m : B.BundleAdd)
  | setFlowEviction (m : SetFlowEviction)
  | getFlowEviction (m : GetFlowEviction)

/-- Go dynamic dispatch of `msg.UnmarshalBinary(data)` on the concrete type. -/
def Message.UnmarshalBinary {B : BundleDecls} (msg : Message B) (data : Slice) :
    Message B × Status :=
  match msg with
  | .controllerID m => let r := m.UnmarshalBinary data; (.controllerID r.1, r.2)
  | .tlvTableMod m => let r := m.UnmarshalBinary data; (.tlvTableMod r.1, r.2)
  | .tlvTableReply m => let r := m.UnmarshalBinary data; (.tlvTableReply r.1, r.2)
  | .bundleControl m => let r := B.unmarshalBundleControl m data; (.bundleControl r.1, r.2)
  | .bundleAdd m => let r := B.unmarshalBundleAdd m data; (.bundleAdd r.1, r.2)
  | .setFlowEviction m => let r := m.UnmarshalBinary data; (.setFlowEviction r.1, r.2)
  | .getFlowEviction m => let r := m.UnmarshalBinary data; (.getFlowEviction r.1, r.2)

/-- Go `switch experimenterType { ... }` of `decodeVendorData`: the value of `msg`
after the switch, `none` for the nil interface left by a code without a case. -/
def selectVendorData (B : BundleDecls) (experimenterType : Nat) : Option (Message B) :=
  if experimenterType = Type_SetControllerId then some (.controllerID {})
  else if experimenterType = Type_TlvTableMod then some (.tlvTableMod {})
  else if experimenterType = Type_TlvTableReply then some (.tlvTableReply {})
  else if experimenterType = B.Type_BundleCtrl then some (.bundleControl B.newBundleControl)
  else if experimenterType = B.Type_BundleAdd then some (.bundleAdd B.newBundleAdd)
  else if experimenterType = ONF_ET_SET_EVICTION then some (.setFlowEviction {})
  else if experimenterType = ONF_ET_GET_EVICTION_REQUEST then some (.getFlowEviction {})
  else if experimenterType = ONF_ET_GET_EVICTION_REPLY then some (.setFlowEviction {})
  else none

/-- Go `decodeVendorData`: the switch, then `msg.UnmarshalBinary(data)`, which is a
method call on a nil interface when no case matched. -/
def decodeVendorData (B : BundleDecls) (experimenterType : Nat) (data : Slice) :
    Res (Message B) :=
  match selectVendorData B experimenterType with
  | none => .panic .nilDereference
  | some msg =>
    match msg.UnmarshalBinary data with
    | (_, .error e) => .error e
    | (_, .panic p) => .panic p
    | (msg, .ok) => .ok msg

/-- Bundle declarations used to evaluate the dispatch on concrete inputs: the ONF
bundle codes 2300 and 2301, payloads without fields, decoders that accept every
buffer. -/
def sampleBundles : BundleDecls where
  Type_BundleCtrl := 2300
  Type_BundleAdd := 2301
  BundleControl := Unit
  BundleAdd := Unit
  newBundleControl := ()
  newBundleAdd := ()
  unmarshalBundleControl := fun m _ => (m, .ok)
  unmarshalBundleAdd := fun m _ => (m, .ok)

/-- Outcome of `decodeVendorData` once the switch has selected a payload, from the
outcome `r` of that payload's `UnmarshalBinary`: the decoded payload when it
returned nil, else its error or its panic. -/
def dispatchOutcome {B : BundleDecls} {α : Type} (wrap : α → Message B) (r : α × Status) :
    Res (Message B) :=
  match r.2 with
  | .ok => .ok (wrap r.1)
  | .error e => .error e
  | .panic p => .panic p

/-- Wire image of one option as `TLVTableMap.MarshalBinary` lays it out. -/
def TLVTableMap.encode (t : TLVTableMap) : List Nat :=
  [(t.OptClass >>> 8) % 256, t.OptClass % 256, t.OptType, t.OptLength,
    (t.Index >>> 8) % 256, t.Index % 256, 0, 0]

/-- Option read from the first 8 bytes of `b` as `TLVTableMap.UnmarshalBinary`
reads them. -/
def TLVTableMap.decode (b : List Nat) : TLVTableMap :=
  { OptClass := b.getD 1 0 ||| (b.getD 0 0 <<< 8)
    OptType := b.getD 2 0
    OptLength := b.getD 3 0
    Index := b.getD 5 0 ||| (b.getD 4 0 <<< 8) }

/-- Wire image of an option list: the images of the options in order. -/
def encodeMaps : List TLVTableMap → List Nat
  | [] => []
  | t :: rest => t.encode ++ encodeMaps rest

/-! ## AddAction and the envelope factories -/

/-- Go `(*EvictionImportanceInstruction).AddAction`; `Action` is an interface
declared outside `nxt_message.go`, any type stands for it. -/
def EvictionImportanceInstruction.AddAction {Action : Type}
    (i : EvictionImportanceInstruction) (_act : Action) (_prepend : Bool) :
    EvictionImportanceInstruction × Status :=
  (i, .error .notSupported)

/-- Declarations of the base protocol that the factories use and that live outside
`nxt_message.go`: the header type with the value `NewOfp13Header()` returns and the
assignment `h.Type = v`, and the constants `Type_Experimenter`, `NxExperimenterID`
and `ONF_EXPERIMENTER_ID`. They are parameters of the factories. -/
structure BaseDecls where
  Header : Type
  NewOfp13Header : Header
  setType : Header → Nat → Header
  Type_Experimenter : Nat
  NxExperimenterID : Nat
  ONF_EXPERIMENTER_ID : Nat

/-- Modelled from the spec: the vendor envelope `VendorHeader`, declared outside
`nxt_message.go`: base header, 32-bit vendor ID, 32-bit experimenter-type code and
the payload, `none` for a nil `VendorData`. -/
structure VendorHeader (E : BaseDecls) (B : BundleDecls) where
  Header : E.Header
  Vendor : Nat
  ExperimenterType : Nat
  VendorData : Option (Message B) := none

/-- Go `NewNXTVendorHeader`. -/
def NewNXTVendorHeader (E : BaseDecls) (B : BundleDecls) (msgType : Nat) : VendorHeader E B :=
  let h := E.NewOfp13Header
  let h := E.setType h E.Type_Experimenter
  { Header := h, Vendor := E.NxExperimenterID, ExperimenterType := msgType }

/-- Go `NewSetControllerID`. -/
def NewSetControllerID (E : BaseDecls) (B : BundleDecls) (id : Nat) : VendorHeader E B :=
  let msg := NewNXTVendorHeader E B Type_SetControllerId
  { msg with VendorData := some (.controllerID { ID := id }) }

/-- Go `NewTLVTableMod`. -/
def NewTLVTableMod (command : Nat) (tlvMaps : List TLVTableMap) : TLVTableMod :=
  { Command := command, TlvMaps := tlvMaps }

/-- Go `NewTLVTableModMessage`. -/
def NewTLVTableModMessage (E : BaseDecls) (B : BundleDecls) (tlvMod : TLVTableMod) :
    VendorHeader E B :=
  let msg := NewNXTVendorHeader E B Type_TlvTableMod
  { msg with VendorData := some (.tlvTableMod tlvMod) }

/-- Go `NewTLVTableRequest`. -/
def NewTLVTableRequest (E : BaseDecls) (B : BundleDecls) : VendorHeader E B :=
  NewNXTVendorHeader E B Type_TlvTableRequest

/-- Go `NewSetFlowEvictionMessage`. -/
def NewSetFlowEvictionMessage (E : BaseDecls) (B : BundleDecls) (tableID : Nat)
    (enabled : Bool) : VendorHeader E B :=
  let h := E.NewOfp13Header
  let h := E.setType h E.Type_Experimenter
  let setFlowEviction : SetFlowEviction := { TableID := tableID, EvictionEnabled := enabled }
  { Header := h
    Vendor := E.ONF_EXPERIMENTER_ID
    ExperimenterType := ONF_ET_SET_EVICTION
    VendorData := some (.setFlowEviction setFlowEviction) }

/-- Go `NewGetFlowEvictionRequestMessage`. -/
def NewGetFlowEvictionRequestMessage (E : BaseDecls) (B : BundleDecls) (tableID : Nat) :
    VendorHeader E B :=
  let h := E.NewOfp13Header
  let h := E.setType h E.Type_Experimenter
  let getFlowEviction : GetFlowEviction := { TableID := tableID }
  { Header := h
    Vendor := E.ONF_EXPERIMENTER_ID
    ExperimenterType := ONF_ET_GET_EVICTION_REQUEST
    VendorData := some (.getFlowEviction getFlowEviction) }

/-- Go `NewGetFlowEvictionReplyMessage`. -/
def NewGetFlowEvictionReplyMessage (E : BaseDecls) (B : BundleDecls) (tableID : Nat) :
    VendorHeader E B :=
  let h := E.NewOfp13Header
  let h := E.setType h E.Type_Experimenter
  let getFlowEviction : GetFlowEviction := { TableID := tableID }
  { Header := h
    Vendor := E.ONF_EXPERIMENTER_ID
    ExperimenterType := ONF_ET_GET_EVICTION_REPLY
    VendorData := some (.getFlowEviction getFlowEviction) }

/-- Base declarations used to evaluate the factories on concrete inputs: a header
that is its type code, `Type_Experimenter` 4, the Nicira vendor ID `0x00002320` and
the ONF vendor ID `0x4f4e4600`. -/
def sampleBase : BaseDecls where
  Header := Nat
  NewOfp13Header := 0
  setType := fun _ v => v
  Type_Experimenter := 4
  NxExperimenterID := 8992
  ONF_EXPERIMENTER_ID := 1330529792

/-- Go dynamic dispatch of `msg.MarshalBinary()` for the payloads the factories of
this file attach; the encoders of the bundle payloads live outside
`nxt_message.go` and are not covered. -/
def Message.MarshalBinary {B : BundleDecls} (msg : Message B) : Option (Res (List Nat)) :=
  match msg with
  | .controllerID m => some m.MarshalBinary
  | .tlvTableMod m => some m.MarshalBinary
  | .tlvTableReply m => some m.MarshalBinary
  | .setFlowEviction m => some m.MarshalBinary
  | .getFlowEviction m => some m.MarshalBinary
  | .bundleControl _ => none
  | .bundleAdd _ => none

/-! ## Reserved offsets of the wire layouts -/

/-- Offsets of the reserved bytes of the options that follow a header of `base`
bytes: the last two of every 8 bytes. -/
def optionPad (base i : Nat) : Bool := decide (base ≤ i) && decide (6 ≤ (i - base) % 8)

/-- Reserved offsets of `ControllerID`: `pad:6, id:2`. -/
def ControllerID.isPad (i : Nat) : Bool := decide (i < 6)

/-- Reserved offsets of `TLVTableMap`: the last two of its 8 bytes. -/
def TLVTableMap.isPad (i : Nat) : Bool := decide (6 ≤ i) && decide (i < 8)

/-- Reserved offsets of `TLVTableMod`: `command:2, pad:6`, then those of the options. -/
def TLVTableMod.isPad (i : Nat) : Bool := (decide (2 ≤ i) && decide (i < 8)) || optionPad 8 i

/-- Reserved offsets of `TLVTableReply`: `maxSpace:4, maxFields:2, pad:10`, then those
of the options. -/
def TLVTableReply.isPad (i : Nat) : Bool :=
  (decide (6 ≤ i) && decide (i < 16)) || optionPad 16 i

/-- Reserved offsets of `SetFlowEviction`: `tableID:1, enabled:1, pad:6`. -/
def SetFlowEviction.isPad (i : Nat) : Bool := decide (2 ≤ i) && decide (i < 8)

/-- Reserved offsets of `GetFlowEviction`: `tableID:1, pad:7`. -/
def GetFlowEviction.isPad (i : Nat) : Bool := decide (1 ≤ i) && decide (i < 8)

/-- Two buffers of equal length that differ at most at the offsets `isPad` marks. -/
def agreeOffPad (isPad : Nat → Bool) (a b : List Nat) : Prop :=
  a.length = b.length ∧ ∀ i, i < a.length → isPad i = false → a.getD i 0 = b.getD i 0

/-- Every byte of `data` at an offset `isPad` marks is zero. -/
def zeroAtPad (isPad : Nat → Bool) (data : List Nat) : Prop :=
  ∀ i, i < data.length → isPad i = true → data.getD i 0 = 0

/-- The `k` options read from `bytes` at the offsets `n`, `n + 8`, ... as
`TLVTableMap.UnmarshalBinary` reads each of them from a fresh value and the 8 bytes
at its offset. -/
def optionsAt (bytes : List Nat) (n k : Nat) : List TLVTableMap :=
  (List.range k).map fun i =>
    (TLVTableMap.UnmarshalBinary {} ⟨(bytes.drop (n + 8 * i)).take 8, []⟩).1

/-! ## Arithmetic of big-endian fields -/

theorem uint16_bytes (v : Nat) (h : v < 65536) :
    (v % 256 ||| (((v >>> 8) % 256) <<< 8)) = v := by
  have h1 : v % 256 < 2 ^ 8 := by omega
  rw [Nat.shiftLeft_eq, Nat.shiftRight_eq_div_pow, Nat.lor_comm, Nat.mul_comm,
    ← Nat.mul_add_lt_is_or h1]
  omega

/-! ## Round trips of the fixed-layout messages -/

/-- Claim C1: for every 16-bit controller ID, every 8-bit table ID and both flag
values, `MarshalBinary` of `ControllerID`, `SetFlowEviction` and `GetFlowEviction`
succeeds, and `UnmarshalBinary` of the produced bytes into a fresh value succeeds
and gives back the encoded value. -/
theorem roundtrip_fixed_layout (id t g : Nat) (en : Bool)
    (hid : id < 65536) (_ht : t < 256) (_hg : g < 256) :
    (∃ data, ControllerID.MarshalBinary ⟨id⟩ = .ok data ∧
      ControllerID.UnmarshalBinary {} ⟨data, []⟩ = (⟨id⟩, .ok)) ∧
    (∃ data, SetFlowEviction.MarshalBinary ⟨t, en⟩ = .ok data ∧
      SetFlowEviction.UnmarshalBinary {} ⟨data, []⟩ = (⟨t, en⟩, .ok)) ∧
    (∃ data, GetFlowEviction.MarshalBinary ⟨g⟩ = .ok data ∧
      GetFlowEviction.UnmarshalBinary {} ⟨data, []⟩ = (⟨g⟩, .ok)) := by
  refine ⟨⟨_, rfl, ?_⟩, ⟨_, rfl, ?_⟩, ⟨_, rfl, ?_⟩⟩
  · simp [ControllerID.UnmarshalBinary, ControllerID.Len, Slice.len, uint16At,
      Slice.sliceFrom, BigEndian.Uint16, makeBytes, List.replicate, uint16_bytes id hid]
  · cases en <;>
      simp [SetFlowEviction.UnmarshalBinary, SetFlowEviction.Len, Slice.len, Slice.index,
        makeBytes, List.replicate]
  · simp [GetFlowEviction.UnmarshalBinary, GetFlowEviction.Len, Slice.len, Slice.index,
      makeBytes, List.replicate]

/-- Instance of claim C1 at the largest field values. -/
theorem roundtrip_fixed_layout_witness :
    (∃ data, ControllerID.MarshalBinary ⟨65535⟩ = .ok data ∧
      ControllerID.UnmarshalBinary {} ⟨data, []⟩ = (⟨65535⟩, .ok)) ∧
    (∃ data, SetFlowEviction.MarshalBinary ⟨255, true⟩ = .ok data ∧
      SetFlowEviction.UnmarshalBinary {} ⟨data, []⟩ = (⟨255, true⟩, .ok)) ∧
    (∃ data, GetFlowEviction.MarshalBinary ⟨255⟩ = .ok data ∧
      GetFlowEviction.UnmarshalBinary {} ⟨data, []⟩ = (⟨255⟩, .ok)) :=
  roundtrip_fixed_layout 65535 255 255 true (by decide) (by decide) (by decide)

/-! ## One option and the option loop -/

theorem tlvTableMap_marshal_eq (t : TLVTableMap) : t.MarshalBinary = .ok t.encode := rfl

theorem tlvTableMap_unmarshal_short (t : TLVTableMap) (data : Slice) (h : data.len < 8) :
    t.UnmarshalBinary data = (t, .error .shortTLVTableMap) := by
  simp [TLVTableMap.UnmarshalBinary, TLVTableMap.Len, h]

theorem tlvTableMap_unmarshal_ok (t : TLVTableMap) (data : Slice) (h : 8 ≤ data.len) :
    t.UnmarshalBinary data = (TLVTableMap.decode data.bytes, .ok) := by
  have h0 : ¬ data.len < 8 := by omega
  have h1 : 1 < data.len := by omega
  have h2 : 2 < data.len := by omega
  have h3 : 3 < data.len := by omega
  have h4 : 4 ≤ data.len := by omega
  have h5 : 1 < data.len - 4 := by omega
  simp [TLVTableMap.UnmarshalBinary, TLVTableMap.Len, TLVTableMap.decode, uint16At,
    Slice.sliceFrom, BigEndian.Uint16, Slice.index, h0, h1, h2, h3, h4]
  simp [Slice.len] at h5 ⊢
  simp [h5, List.getD_eq_getElem?_getD, List.getElem?_drop]

theorem tlvTableMap_decode_encode (t : TLVTableMap) (h : t.WF) (rest : List Nat) :
    TLVTableMap.decode (t.encode ++ rest) = t := by
  obtain ⟨h1, _, _, h4⟩ := h
  cases t
  simp only [TLVTableMap.decode, TLVTableMap.encode, List.cons_append, List.getD_cons_zero,
    List.getD_cons_succ] at *
  simp [uint16_bytes _ h1, uint16_bytes _ h4]

theorem unmarshalTlvMaps_done (data : Slice) (fuel n : Nat) (h : data.len - n < fuel)
    (acc : List TLVTableMap) (hn : ¬ n < data.len) :
    unmarshalTlvMaps data fuel n h acc = (acc, .ok) := by
  cases fuel with
  | zero => omega
  | succ fuel => simp [unmarshalTlvMaps, hn]

theorem unmarshalTlvMaps_short (data : Slice) (fuel n : Nat) (h : data.len - n < fuel)
    (acc : List TLVTableMap) (hn : n < data.len) (hs : data.len - n < 8) :
    unmarshalTlvMaps data fuel n h acc = (acc, .error .shortTLVTableMap) := by
  cases fuel with
  | zero => omega
  | succ fuel =>
    have hle : n ≤ data.len := by omega
    have hsub : (⟨data.bytes.drop n, data.spare⟩ : Slice).len < 8 := by
      simpa [Slice.len] using hs
    simp [unmarshalTlvMaps, hn, Slice.sliceFrom, hle, tlvTableMap_unmarshal_short _ _ hsub]

theorem unmarshalTlvMaps_step (data : Slice) (fuel n : Nat) (h : data.len - n < fuel + 1)
    (acc : List TLVTableMap) (hs : 8 ≤ data.len - n) :
    unmarshalTlvMaps data (fuel + 1) n h acc
      = unmarshalTlvMaps data fuel (n + 8) (by omega)
          (acc ++ [TLVTableMap.decode (data.bytes.drop n)]) := by
  have hn : n < data.len := by omega
  have hle : n ≤ data.len := by omega
  have hsub : 8 ≤ (⟨data.bytes.drop n, data.spare⟩ : Slice).len := by
    simpa [Slice.len] using hs
  simp [unmarshalTlvMaps, hn, Slice.sliceFrom, hle, tlvTableMap_unmarshal_ok _ _ hsub,
    TLVTableMap.Len]

/-- With `k` whole options and `r` trailing bytes, `0 < r < 8`, left from offset
`n`, the loop appends the `k` options and ends with the error of the option
decoder. -/
theorem unmarshalTlvMaps_trailing (data : Slice) (r : Nat) (hr : 0 < r) (hr8 : r < 8) :
    ∀ (k fuel n : Nat) (h : data.len - n < fuel) (acc : List TLVTableMap),
      data.len = n + 8 * k + r →
      (unmarshalTlvMaps data fuel n h acc).2 = .error .shortTLVTableMap ∧
      (unmarshalTlvMaps data fuel n h acc).1.length = acc.length + k := by
  intro k
  induction k with
  | zero =>
    intro fuel n h acc hlen
    rw [unmarshalTlvMaps_short data fuel n h acc (by omega) (by omega)]
    simp
  | succ k ih =>
    intro fuel n h acc hlen
    cases fuel with
    | zero => omega
    | succ fuel =>
      rw [unmarshalTlvMaps_step data fuel n h acc (by omega)]
      have := ih fuel (n + 8) (by omega) (acc ++ [TLVTableMap.decode (data.bytes.drop n)])
        (by omega)
      simp only [List.length_append, List.length_singleton] at this
      exact ⟨this.1, by omega⟩

/-! ## Encoding an option list -/

theorem tlvMapsLen_eq (maps : List TLVTableMap) :
    ∀ base, base < 65536 → tlvMapsLen base maps = (base + 8 * maps.length) % 65536 := by
  induction maps with
  | nil => intro base h; simp [tlvMapsLen, Nat.mod_eq_of_lt h]
  | cons t rest ih =>
    intro base h
    have := ih ((base + 8) % 65536) (Nat.mod_lt _ (by decide))
    simp only [tlvMapsLen, List.foldl_cons, TLVTableMap.Len, List.length_cons] at this ⊢
    rw [this]
    omega

theorem encodeMaps_length (maps : List TLVTableMap) :
    (encodeMaps maps).length = 8 * maps.length := by
  induction maps with
  | nil => rfl
  | cons t rest ih => simp [encodeMaps, TLVTableMap.encode, ih]; omega

theorem copyAt_zeros (front src : List Nat) (k : Nat) :
    copyAt (front ++ List.replicate (src.length + k) 0) front.length src
      = .ok (front ++ src ++ List.replicate k 0) := by
  simp [copyAt, copyBytes, List.take_append_eq_append_take, List.drop_append_eq_append_drop,
    List.take_of_length_le]

theorem marshalTlvMaps_zeros (maps : List TLVTableMap) :
    ∀ (front : List Nat) (k : Nat),
      marshalTlvMaps maps (front ++ List.replicate (8 * maps.length + k) 0) front.length
        = .ok (front ++ encodeMaps maps ++ List.replicate k 0) := by
  induction maps with
  | nil => intro front k; simp [marshalTlvMaps, encodeMaps]
  | cons t rest ih =>
    intro front k
    have hlen : t.encode.length = 8 := rfl
    have h1 : 8 * (t :: rest).length + k = t.encode.length + (8 * rest.length + k) := by
      simp only [List.length_cons, hlen]; omega
    have h2 := ih (front ++ t.encode) k
    simp only [List.length_append] at h2
    simp only [marshalTlvMaps, tlvTableMap_marshal_eq, h1, copyAt_zeros, encodeMaps]
    simpa [List.append_assoc] using h2

/-! ## Decoding an encoded option list -/

theorem unmarshalTlvMaps_encoded (spare : List Nat) (maps : List TLVTableMap) :
    ∀ (front : List Nat) (fuel : Nat)
      (h : (⟨front ++ encodeMaps maps, spare⟩ : Slice).len - front.length < fuel)
      (acc : List TLVTableMap), (∀ t ∈ maps, t.WF) →
      unmarshalTlvMaps ⟨front ++ encodeMaps maps, spare⟩ fuel front.length h acc
        = (acc ++ maps, .ok) := by
  induction maps with
  | nil =>
    intro front fuel h acc _
    rw [unmarshalTlvMaps_done _ _ _ _ _ (by simp [Slice.len, encodeMaps])]
    simp
  | cons t rest ih =>
    intro front fuel h acc hwf
    cases fuel with
    | zero => omega
    | succ fuel =>
      have hlen : t.encode.length = 8 := rfl
      rw [unmarshalTlvMaps_step _ _ _ _ _
        (by simp [Slice.len, encodeMaps, hlen])]
      have hd : TLVTableMap.decode (t.encode ++ encodeMaps rest) = t :=
        tlvTableMap_decode_encode t (hwf t (List.mem_cons_self _ _)) _
      have h2 := ih (front ++ t.encode) fuel
        (by simp [Slice.len, encodeMaps_length] at h ⊢; omega) (acc ++ [t])
        (fun u hu => hwf u (List.mem_cons_of_mem _ hu))
      simp only [List.length_append, hlen, List.append_assoc] at h2
      simpa [List.append_assoc, encodeMaps, hd] using h2

theorem unmarshalTlvMaps_encoded_at (spare : List Nat) (maps : List TLVTableMap)
    (front : List Nat) (n : Nat) (hn : front.length = n) (fuel : Nat)
    (h : (⟨front ++ encodeMaps maps, spare⟩ : Slice).len - n < fuel)
    (acc : List TLVTableMap) (hwf : ∀ t ∈ maps, t.WF) :
    unmarshalTlvMaps ⟨front ++ encodeMaps maps, spare⟩ fuel n h acc = (acc ++ maps, .ok) := by
  subst hn
  exact unmarshalTlvMaps_encoded spare maps front fuel h acc hwf

/-! ## TLVTableMod and TLVTableReply on encoded option lists -/

theorem uint32_bytes (v : Nat) (h : v < 4294967296) :
    (v % 256 ||| (((v >>> 8) % 256) <<< 8) ||| (((v >>> 16) % 256) <<< 16)
      ||| (((v >>> 24) % 256) <<< 24)) = v := by
  have h1 : v % 256 < 2 ^ 8 := by omega
  have h2 : 2 ^ 8 * (v / 2 ^ 8 % 256) + v % 256 < 2 ^ 16 := by omega
  have h3 : 2 ^ 16 * (v / 2 ^ 16 % 256) + (2 ^ 8 * (v / 2 ^ 8 % 256) + v % 256) < 2 ^ 24 := by
    omega
  simp only [Nat.shiftLeft_eq, Nat.shiftRight_eq_div_pow]
  rw [Nat.lor_comm (v % 256), Nat.mul_comm _ (2 ^ 8), ← Nat.mul_add_lt_is_or h1,
    Nat.lor_comm _ (v / 2 ^ 16 % 256 * 2 ^ 16), Nat.mul_comm _ (2 ^ 16),
    ← Nat.mul_add_lt_is_or h2,
    Nat.lor_comm _ (v / 2 ^ 24 % 256 * 2 ^ 24), Nat.mul_comm _ (2 ^ 24),
    ← Nat.mul_add_lt_is_or h3]
  omega

theorem tlvTableMod_marshal_eq (c : Nat) (maps : List TLVTableMap)
    (hN : maps.length ≤ 8190) :
    TLVTableMod.MarshalBinary ⟨c, maps⟩
      = .ok ([(c >>> 8) % 256, c % 256, 0, 0, 0, 0, 0, 0] ++ encodeMaps maps) := by
  have hlen : TLVTableMod.Len ⟨c, maps⟩ = 8 + (8 * maps.length + 0) := by
    rw [TLVTableMod.Len, tlvMapsLen_eq _ _ (by decide)]
    exact Nat.mod_eq_of_lt (by show 8 + 8 * maps.length < 65536; omega)
  have hz := marshalTlvMaps_zeros maps [(c >>> 8) % 256, c % 256, 0, 0, 0, 0, 0, 0] 0
  simp only [List.replicate_zero, List.append_nil, List.length_cons, List.length_nil] at hz
  simp only [TLVTableMod.MarshalBinary, hlen, makeBytes, List.replicate_add]
  simpa [putUint16At, List.replicate] using hz

theorem tlvTableMod_unmarshal_encoded (t : TLVTableMod) (b0 b1 b2 b3 b4 b5 b6 b7 : Nat)
    (maps : List TLVTableMap) (spare : List Nat) (hwf : ∀ u ∈ maps, u.WF) :
    t.UnmarshalBinary ⟨[b0, b1, b2, b3, b4, b5, b6, b7] ++ encodeMaps maps, spare⟩
      = (⟨b1 ||| (b0 <<< 8), t.TlvMaps ++ maps⟩, .ok) := by
  have h := unmarshalTlvMaps_encoded_at spare maps [b0, b1, b2, b3, b4, b5, b6, b7] (2 + 6) rfl
  have h8 : ¬ (⟨[b0, b1, b2, b3, b4, b5, b6, b7] ++ encodeMaps maps, spare⟩ : Slice).len < 8 := by
    simp [Slice.len]
  have hc : uint16At ⟨[b0, b1, b2, b3, b4, b5, b6, b7] ++ encodeMaps maps, spare⟩ 0
      = .ok (b1 ||| (b0 <<< 8)) := by
    simp [uint16At, Slice.sliceFrom, BigEndian.Uint16, Slice.len]
  simp only [TLVTableMod.UnmarshalBinary, h8, if_false, hc, h _ _ _ hwf]

theorem tlvTableReply_marshal_eq (x : TLVTableReply) (hN : x.TlvMaps.length ≤ 8189) :
    x.MarshalBinary
      = .ok ([(x.MaxSpace >>> 24) % 256, (x.MaxSpace >>> 16) % 256, (x.MaxSpace >>> 8) % 256,
          x.MaxSpace % 256, (x.MaxFields >>> 8) % 256, x.MaxFields % 256,
          0, 0, 0, 0, 0, 0, 0, 0, 0, 0] ++ encodeMaps x.TlvMaps) := by
  have hlen : x.Len = 16 + (8 * x.TlvMaps.length + 0) := by
    rw [TLVTableReply.Len, tlvMapsLen_eq _ _ (by decide)]
    exact Nat.mod_eq_of_lt (by omega)
  have hz := marshalTlvMaps_zeros x.TlvMaps
    [(x.MaxSpace >>> 24) % 256, (x.MaxSpace >>> 16) % 256, (x.MaxSpace >>> 8) % 256,
      x.MaxSpace % 256, (x.MaxFields >>> 8) % 256, x.MaxFields % 256,
      0, 0, 0, 0, 0, 0, 0, 0, 0, 0] 0
  simp only [List.replicate_zero, List.append_nil, List.length_cons, List.length_nil] at hz
  simp only [TLVTableReply.MarshalBinary, hlen, makeBytes, List.replicate_add]
  simpa [putUint16At, putUint32At, List.replicate] using hz

theorem tlvTableReply_unmarshal_encoded (t : TLVTableReply)
    (b0 b1 b2 b3 b4 b5 r0 r1 r2 r3 r4 r5 r6 r7 r8 r9 : Nat)
    (maps : List TLVTableMap) (spare : List Nat) (hwf : ∀ u ∈ maps, u.WF) :
    t.UnmarshalBinary
        ⟨[b0, b1, b2, b3, b4, b5, r0, r1, r2, r3, r4, r5, r6, r7, r8, r9] ++ encodeMaps maps,
          spare⟩
      = (⟨b3 ||| (b2 <<< 8) ||| (b1 <<< 16) ||| (b0 <<< 24), b5 ||| (b4 <<< 8),
          [r0, r1, r2, r3, r4, r5, r6, r7, r8, r9], t.TlvMaps ++ maps⟩, .ok) := by
  have h := unmarshalTlvMaps_encoded_at spare maps
    [b0, b1, b2, b3, b4, b5, r0, r1, r2, r3, r4, r5, r6, r7, r8, r9] (4 + 2 + 10) rfl
  have h1 : uint32At
      ⟨[b0, b1, b2, b3, b4, b5, r0, r1, r2, r3, r4, r5, r6, r7, r8, r9] ++ encodeMaps maps,
        spare⟩ 0 = .ok (b3 ||| (b2 <<< 8) ||| (b1 <<< 16) ||| (b0 <<< 24)) := by
    simp [uint32At, Slice.sliceFrom, BigEndian.Uint32, Slice.len]
  have h2 : uint16At
      ⟨[b0, b1, b2, b3, b4, b5, r0, r1, r2, r3, r4, r5, r6, r7, r8, r9] ++ encodeMaps maps,
        spare⟩ 4 = .ok (b5 ||| (b4 <<< 8)) := by
    simp [uint16At, Slice.sliceFrom, BigEndian.Uint16, Slice.len]
  have h3 : Slice.slice
      ⟨[b0, b1, b2, b3, b4, b5, r0, r1, r2, r3, r4, r5, r6, r7, r8, r9] ++ encodeMaps maps,
        spare⟩ 6 (6 + 10)
      = .ok ⟨[r0, r1, r2, r3, r4, r5, r6, r7, r8, r9], encodeMaps maps ++ spare⟩ := by
    unfold Slice.slice
    rw [if_pos ⟨by omega, by simp only [Slice.cap, List.length_append, List.length_cons]; omega⟩]
    simp
  simp only [TLVTableReply.UnmarshalBinary, h1, h2, h3, h _ _ _ hwf]
  simp [copyBytes, makeBytes]

/-! ## Buffers below the minimum length -/

/-- Claim C5: on every buffer shorter than 8 bytes, `UnmarshalBinary` of
`ControllerID`, `TLVTableMap`, `TLVTableMod`, `SetFlowEviction` and
`GetFlowEviction` returns its error and hands back the receiver unchanged; it is
not a panic, and the outcome is the same on every other buffer shorter than 8
bytes, whatever its bytes and length. -/
theorem short_buffer_rejected (data : Slice) (h : data.len < 8)
    (c : ControllerID) (m : TLVTableMap) (t : TLVTableMod)
    (s : SetFlowEviction) (g : GetFlowEviction) :
    c.UnmarshalBinary data = (c, .error .shortControllerID) ∧
    m.UnmarshalBinary data = (m, .error .shortTLVTableMap) ∧
    t.UnmarshalBinary data = (t, .error .shortTLVTableMod) ∧
    s.UnmarshalBinary data = (s, .error .shortSetFlowEviction) ∧
    g.UnmarshalBinary data = (g, .error .shortSetFlowEviction) ∧
    (∀ other : Slice, other.len < 8 →
      c.UnmarshalBinary other = c.UnmarshalBinary data ∧
      m.UnmarshalBinary other = m.UnmarshalBinary data ∧
      t.UnmarshalBinary other = t.UnmarshalBinary data ∧
      s.UnmarshalBinary other = s.UnmarshalBinary data ∧
      g.UnmarshalBinary other = g.UnmarshalBinary data) := by
  refine ⟨?_, ?_, ?_, ?_, ?_, ?_⟩
  · simp [ControllerID.UnmarshalBinary, ControllerID.Len, h]
  · simp [TLVTableMap.UnmarshalBinary, TLVTableMap.Len, h]
  · simp [TLVTableMod.UnmarshalBinary, h]
  · simp [SetFlowEviction.UnmarshalBinary, SetFlowEviction.Len, h]
  · simp [GetFlowEviction.UnmarshalBinary, GetFlowEviction.Len, h]
  · intro other ho
    simp [ControllerID.UnmarshalBinary, ControllerID.Len, TLVTableMap.UnmarshalBinary,
      TLVTableMap.Len, TLVTableMod.UnmarshalBinary, SetFlowEviction.UnmarshalBinary,
      SetFlowEviction.Len, GetFlowEviction.UnmarshalBinary, GetFlowEviction.Len, h, ho]

/-- Instance of claim C5 on a 7-byte buffer and receivers with non-zero fields. -/
theorem short_buffer_rejected_witness :
    ControllerID.UnmarshalBinary ⟨5⟩ ⟨[1, 2, 3, 4, 5, 6, 7], []⟩
      = (⟨5⟩, .error .shortControllerID) ∧
    TLVTableMap.UnmarshalBinary ⟨1, 2, 3, 4⟩ ⟨[1, 2, 3, 4, 5, 6, 7], []⟩
      = (⟨1, 2, 3, 4⟩, .error .shortTLVTableMap) ∧
    TLVTableMod.UnmarshalBinary ⟨9, [⟨1, 2, 3, 4⟩]⟩ ⟨[1, 2, 3, 4, 5, 6, 7], []⟩
      = (⟨9, [⟨1, 2, 3, 4⟩]⟩, .error .shortTLVTableMod) ∧
    SetFlowEviction.UnmarshalBinary ⟨3, true⟩ ⟨[1, 2, 3, 4, 5, 6, 7], []⟩
      = (⟨3, true⟩, .error .shortSetFlowEviction) ∧
    GetFlowEviction.UnmarshalBinary ⟨3⟩ ⟨[1, 2, 3, 4, 5, 6, 7], []⟩
      = (⟨3⟩, .error .shortSetFlowEviction) ∧
    (∀ other : Slice, other.len < 8 →
      ControllerID.UnmarshalBinary ⟨5⟩ other
        = ControllerID.UnmarshalBinary ⟨5⟩ ⟨[1, 2, 3, 4, 5, 6, 7], []⟩ ∧
      TLVTableMap.UnmarshalBinary ⟨1, 2, 3, 4⟩ other
        = TLVTableMap.UnmarshalBinary ⟨1, 2, 3, 4⟩ ⟨[1, 2, 3, 4, 5, 6, 7], []⟩ ∧
      TLVTableMod.UnmarshalBinary ⟨9, [⟨1, 2, 3, 4⟩]⟩ other
        = TLVTableMod.UnmarshalBinary ⟨9, [⟨1, 2, 3, 4⟩]⟩ ⟨[1, 2, 3, 4, 5, 6, 7], []⟩ ∧
      SetFlowEviction.UnmarshalBinary ⟨3, true⟩ other
        = SetFlowEviction.UnmarshalBinary ⟨3, true⟩ ⟨[1, 2, 3, 4, 5, 6, 7], []⟩ ∧
      GetFlowEviction.UnmarshalBinary ⟨3⟩ other
        = GetFlowEviction.UnmarshalBinary ⟨3⟩ ⟨[1, 2, 3, 4, 5, 6, 7], []⟩) :=
  short_buffer_rejected ⟨[1, 2, 3, 4, 5, 6, 7], []⟩ (by decide) ⟨5⟩ ⟨1, 2, 3, 4⟩
    ⟨9, [⟨1, 2, 3, 4⟩]⟩ ⟨3, true⟩ ⟨3⟩

/-- On a buffer shorter than 16 bytes `TLVTableReply.UnmarshalBinary` never returns
an error: it panics or, when the capacity reaches 16, returns nil. -/
theorem tlvTableReply_short_never_error (t : TLVTableReply) (data : Slice)
    (h : data.len < 16) (e : GoError) :
    (t.UnmarshalBinary data).2 ≠ .error e := by
  unfold TLVTableReply.UnmarshalBinary
  cases h1 : uint32At data 0 with
  | error p => simp
  | ok v1 =>
    cases h2 : uint16At data 4 with
    | error p => simp
    | ok v2 =>
      cases h3 : data.slice 6 (6 + 10) with
      | error p => simp
      | ok src =>
        have hn : ¬ (4 + 2 + 10 < data.len) := by omega
        simp [unmarshalTlvMaps, hn]

/-- Claim C6, code at the failing input: on the empty buffer
`TLVTableReply.UnmarshalBinary` panics in `binary.BigEndian.Uint32` (index out of
range) and returns no error; on a 10-byte buffer it panics in `data[6:16]`. -/
theorem tlvTableReply_unmarshal_short_panics :
    TLVTableReply.UnmarshalBinary {} ⟨[], []⟩ = ({}, .panic .indexOutOfRange) ∧
    (TLVTableReply.UnmarshalBinary {} ⟨[0, 0, 0, 1, 0, 2, 0, 0, 0, 0], []⟩).2
      = .panic .sliceBoundsOutOfRange := by
  constructor <;> rfl

/-- Claim C7, code at the failing input: on the empty buffer
`EvictionImportanceInstruction.UnmarshalBinary` panics in `data[:4]` (slice bounds
out of range), on a 10-byte buffer it panics in `binary.BigEndian.Uint32`, and on a
14-byte buffer it returns nil; none of the three returns an error. -/
theorem evictionImportance_unmarshal_short :
    EvictionImportanceInstruction.UnmarshalBinary {} ⟨[], []⟩
      = ({ InstrHeader := some {} }, .panic .sliceBoundsOutOfRange) ∧
    (EvictionImportanceInstruction.UnmarshalBinary {}
      ⟨[255, 255, 0, 18, 0, 0, 0, 1, 0, 0], []⟩).2 = .panic .indexOutOfRange ∧
    EvictionImportanceInstruction.UnmarshalBinary {}
      ⟨[255, 255, 0, 18, 0, 0, 0, 1, 0, 0, 0, 2, 0, 3], []⟩
      = (⟨some ⟨65535, 18⟩, 1, 2, 3⟩, .ok) := by
  refine ⟨?_, ?_, ?_⟩ <;> decide

/-! ## Dispatch -/

theorem decodeVendorData_some (B : BundleDecls) (experimenterType : Nat) (data : Slice)
    (msg : Message B) (h : selectVendorData B experimenterType = some msg) :
    decodeVendorData B experimenterType data
      = dispatchOutcome id (msg.UnmarshalBinary data) := by
  unfold decodeVendorData dispatchOutcome
  rw [h]
  rcases hr : msg.UnmarshalBinary data with ⟨m, st⟩
  cases st <;> simp [hr]

/-- Claim C9, what the code does: for every experimenter type without a case in the
switch and every buffer, `msg` stays the nil interface and
`msg.UnmarshalBinary(data)` panics; no error is returned. -/
theorem decodeVendorData_unknown_type_panics (B : BundleDecls) (experimenterType : Nat)
    (data : Slice)
    (h1 : experimenterType ≠ Type_SetControllerId)
    (h2 : experimenterType ≠ Type_TlvTableMod)
    (h3 : experimenterType ≠ Type_TlvTableReply)
    (h4 : experimenterType ≠ B.Type_BundleCtrl)
    (h5 : experimenterType ≠ B.Type_BundleAdd)
    (h6 : experimenterType ≠ ONF_ET_SET_EVICTION)
    (h7 : experimenterType ≠ ONF_ET_GET_EVICTION_REQUEST)
    (h8 : experimenterType ≠ ONF_ET_GET_EVICTION_REPLY) :
    selectVendorData B experimenterType = none ∧
    decodeVendorData B experimenterType data = .panic .nilDereference := by
  have hs : selectVendorData B experimenterType = none := by
    simp [selectVendorData, h1, h2, h3, h4, h5, h6, h7, h8]
  exact ⟨hs, by simp [decodeVendorData, hs]⟩

/-- Instance of claim C9 at experimenter type 0 and the empty buffer. -/
theorem decodeVendorData_unknown_type_panics_witness :
    selectVendorData sampleBundles 0 = none ∧
    decodeVendorData sampleBundles 0 ⟨[], []⟩ = .panic .nilDereference :=
  decodeVendorData_unknown_type_panics sampleBundles 0 ⟨[], []⟩ (by decide) (by decide)
    (by decide) (by decide) (by decide) (by decide) (by decide) (by decide)

/-- Claim C10 fails at the TLV-table request code 25: the switch has no case for
it, so no payload type is selected and the call panics on a well-formed 8-byte
buffer instead of returning a payload or a decoder error. -/
theorem decodeVendorData_tlvTableRequest_unresolved :
    selectVendorData sampleBundles Type_TlvTableRequest = none ∧
    decodeVendorData sampleBundles Type_TlvTableRequest ⟨[0, 0, 0, 0, 0, 0, 0, 0], []⟩
      = .panic .nilDereference := by
  constructor <;> rfl

/-- Claim C10 as amended: the codes 20, 24, 26, 1925, 1926 and 1927 select a fresh
`ControllerID`, `TLVTableMod`, `TLVTableReply`, `SetFlowEviction`,
`GetFlowEviction` and `SetFlowEviction`, and the outcome of `decodeVendorData` is
the outcome of that payload's `UnmarshalBinary` on the buffer: the decoded payload
when it returns nil, its error when it returns one. The bundle codes are distinct
from the case constants that follow them in the switch, as Go requires. -/
theorem decodeVendorData_dispatch (B : BundleDecls) (data : Slice)
    (hc : B.Type_BundleCtrl ∉ [1925, 1926, 1927])
    (ha : B.Type_BundleAdd ∉ [1925, 1926, 1927]) :
    decodeVendorData B Type_SetControllerId data
      = dispatchOutcome .controllerID (ControllerID.UnmarshalBinary {} data) ∧
    decodeVendorData B Type_TlvTableMod data
      = dispatchOutcome .tlvTableMod (TLVTableMod.UnmarshalBinary {} data) ∧
    decodeVendorData B Type_TlvTableReply data
      = dispatchOutcome .tlvTableReply (TLVTableReply.UnmarshalBinary {} data) ∧
    decodeVendorData B ONF_ET_SET_EVICTION data
      = dispatchOutcome .setFlowEviction (SetFlowEviction.UnmarshalBinary {} data) ∧
    decodeVendorData B ONF_ET_GET_EVICTION_REQUEST data
      = dispatchOutcome .getFlowEviction (GetFlowEviction.UnmarshalBinary {} data) ∧
    decodeVendorData B ONF_ET_GET_EVICTION_REPLY data
      = dispatchOutcome .setFlowEviction (SetFlowEviction.UnmarshalBinary {} data) := by
  simp only [List.mem_cons, List.mem_singleton, List.mem_nil_iff, not_or, or_false] at hc ha
  obtain ⟨hc1, hc2, hc3⟩ := hc
  obtain ⟨ha1, ha2, ha3⟩ := ha
  refine ⟨?_, ?_, ?_, ?_, ?_, ?_⟩
  · rw [decodeVendorData_some B _ data (.controllerID {})
      (by simp [selectVendorData])]
    rfl
  · rw [decodeVendorData_some B _ data (.tlvTableMod {})
      (by simp [selectVendorData, Type_TlvTableMod, Type_SetControllerId])]
    rfl
  · rw [decodeVendorData_some B _ data (.tlvTableReply {})
      (by simp [selectVendorData, Type_TlvTableMod, Type_SetControllerId,
        Type_TlvTableReply])]
    rfl
  · rw [decodeVendorData_some B _ data (.setFlowEviction {})
      (by simp [selectVendorData, Type_TlvTableMod, Type_SetControllerId,
        Type_TlvTableReply, ONF_ET_SET_EVICTION, Ne.symm hc1, Ne.symm ha1])]
    rfl
  · rw [decodeVendorData_some B _ data (.getFlowEviction {})
      (by simp [selectVendorData, Type_TlvTableMod, Type_SetControllerId,
        Type_TlvTableReply, ONF_ET_SET_EVICTION, ONF_ET_GET_EVICTION_REQUEST,
        Ne.symm hc2, Ne.symm ha2])]
    rfl
  · rw [decodeVendorData_some B _ data (.setFlowEviction {})
      (by simp [selectVendorData, Type_TlvTableMod, Type_SetControllerId,
        Type_TlvTableReply, ONF_ET_SET_EVICTION, ONF_ET_GET_EVICTION_REQUEST,
        ONF_ET_GET_EVICTION_REPLY, Ne.symm hc3, Ne.symm ha3])]
    rfl

/-! ## Option lists with a trailing fragment -/

theorem uint32At_ok (data : Slice) (n : Nat) (h : n + 4 ≤ data.len) :
    ∃ v, uint32At data n = .ok v := by
  have h1 : n ≤ data.len := by omega
  have h2 : 3 < data.len - n := by omega
  simp only [Slice.len] at h1 h2
  simp [uint32At, Slice.sliceFrom, BigEndian.Uint32, Slice.len, h1, h2]

theorem uint16At_ok (data : Slice) (n : Nat) (h : n + 2 ≤ data.len) :
    ∃ v, uint16At data n = .ok v := by
  have h1 : n ≤ data.len := by omega
  have h2 : 1 < data.len - n := by omega
  simp only [Slice.len] at h1 h2
  simp [uint16At, Slice.sliceFrom, BigEndian.Uint16, Slice.len, h1, h2]

theorem slice_ok (data : Slice) (lo hi : Nat) (h1 : lo ≤ hi) (h2 : hi ≤ data.len) :
    ∃ s, data.slice lo hi = .ok s := by
  have h3 : hi ≤ data.cap := by simp only [Slice.cap, Slice.len] at *; omega
  simp [Slice.slice, h1, h3]

/-- Claim C8: a `TLVTableMod` buffer of length `8 + 8k + r` and a `TLVTableReply`
buffer of length `16 + 8k + r`, with `0 < r < 8`, are rejected: `UnmarshalBinary`
returns the error of the option decoder instead of returning nil with the trailing
fragment dropped. -/
theorem trailing_fragment_rejected (dataMod dataReply : Slice) (k r : Nat)
    (hr : 0 < r) (hr8 : r < 8)
    (hMod : dataMod.len = 8 + 8 * k + r) (hReply : dataReply.len = 16 + 8 * k + r)
    (tMod : TLVTableMod) (tReply : TLVTableReply) :
    (tMod.UnmarshalBinary dataMod).2 = .error .shortTLVTableMap ∧
    (tReply.UnmarshalBinary dataReply).2 = .error .shortTLVTableMap := by
  constructor
  · obtain ⟨c, hc⟩ := uint16At_ok dataMod 0 (by omega)
    have h8 : ¬ dataMod.len < 8 := by omega
    simp only [TLVTableMod.UnmarshalBinary, h8, if_false, hc]
    exact (unmarshalTlvMaps_trailing dataMod r hr hr8 k _ _ _ _ (by omega)).1
  · obtain ⟨v1, h1⟩ := uint32At_ok dataReply 0 (by omega)
    obtain ⟨v2, h2⟩ := uint16At_ok dataReply 4 (by omega)
    obtain ⟨src, h3⟩ := slice_ok dataReply 6 (6 + 10) (by omega) (by omega)
    simp only [TLVTableReply.UnmarshalBinary, h1, h2, h3]
    exact (unmarshalTlvMaps_trailing dataReply r hr hr8 k _ _ _ _ (by omega)).1

/-- Instance of claim C8: one whole option followed by three bytes. -/
theorem trailing_fragment_rejected_witness :
    (TLVTableMod.UnmarshalBinary {}
      ⟨[0, 1, 0, 0, 0, 0, 0, 0, 128, 0, 0, 4, 0, 0, 0, 0, 128, 0, 1], []⟩).2
      = .error .shortTLVTableMap ∧
    (TLVTableReply.UnmarshalBinary {}
      ⟨[0, 0, 0, 9, 0, 2, 0, 0, 0, 0, 0, 0, 0, 0, 0, 0,
        128, 0, 0, 4, 0, 0, 0, 0, 128, 0, 1], []⟩).2
      = .error .shortTLVTableMap :=
  trailing_fragment_rejected _ _ 1 3 (by decide) (by decide) (by decide) (by decide) {} {}

/-- Instance of the amended claim C10 on an 8-byte buffer. -/
theorem decodeVendorData_dispatch_witness :
    decodeVendorData sampleBundles Type_SetControllerId ⟨[0, 0, 0, 0, 0, 0, 1, 2], []⟩
      = dispatchOutcome .controllerID
          (ControllerID.UnmarshalBinary {} ⟨[0, 0, 0, 0, 0, 0, 1, 2], []⟩) ∧
    decodeVendorData sampleBundles Type_TlvTableMod ⟨[0, 0, 0, 0, 0, 0, 1, 2], []⟩
      = dispatchOutcome .tlvTableMod
          (TLVTableMod.UnmarshalBinary {} ⟨[0, 0, 0, 0, 0, 0, 1, 2], []⟩) ∧
    decodeVendorData sampleBundles Type_TlvTableReply ⟨[0, 0, 0, 0, 0, 0, 1, 2], []⟩
      = dispatchOutcome .tlvTableReply
          (TLVTableReply.UnmarshalBinary {} ⟨[0, 0, 0, 0, 0, 0, 1, 2], []⟩) ∧
    decodeVendorData sampleBundles ONF_ET_SET_EVICTION ⟨[0, 0, 0, 0, 0, 0, 1, 2], []⟩
      = dispatchOutcome .setFlowEviction
          (SetFlowEviction.UnmarshalBinary {} ⟨[0, 0, 0, 0, 0, 0, 1, 2], []⟩) ∧
    decodeVendorData sampleBundles ONF_ET_GET_EVICTION_REQUEST ⟨[0, 0, 0, 0, 0, 0, 1, 2], []⟩
      = dispatchOutcome .getFlowEviction
          (GetFlowEviction.UnmarshalBinary {} ⟨[0, 0, 0, 0, 0, 0, 1, 2], []⟩) ∧
    decodeVendorData sampleBundles ONF_ET_GET_EVICTION_REPLY ⟨[0, 0, 0, 0, 0, 0, 1, 2], []⟩
      = dispatchOutcome .setFlowEviction
          (SetFlowEviction.UnmarshalBinary {} ⟨[0, 0, 0, 0, 0, 0, 1, 2], []⟩) :=
  decodeVendorData_dispatch sampleBundles ⟨[0, 0, 0, 0, 0, 0, 1, 2], []⟩
    (by decide) (by decide)

/-! ## Round trips of the option-list messages -/

/-- Claim C2 fails for long lists: with 8191 options the 16-bit `Len` wraps to 0,
`make` returns an empty buffer and `MarshalBinary` panics in `PutUint16`, so there
are no bytes to decode. -/
theorem tlvTableMod_marshal_overflow :
    TLVTableMod.Len ⟨1, List.replicate 8191 {}⟩ = 0 ∧
    TLVTableMod.MarshalBinary ⟨1, List.replicate 8191 {}⟩ = .panic .indexOutOfRange := by
  have hlen : TLVTableMod.Len ⟨1, List.replicate 8191 {}⟩ = 0 := by
    have h := tlvMapsLen_eq (List.replicate 8191 {}) 8 (by decide)
    rw [List.length_replicate] at h
    exact h
  refine ⟨hlen, ?_⟩
  simp only [TLVTableMod.MarshalBinary, hlen]
  rfl

/-- Claim C2 as amended: for every command and every list of at most 8190 options
(so that `8 + 8N` fits the 16-bit `Len`), `MarshalBinary` returns `8 + 8N` bytes and
`UnmarshalBinary` of them into a fresh value gives the same command and the same
options in the same order. -/
theorem tlvTableMod_roundtrip (c : Nat) (maps : List TLVTableMap) (hc : c < 65536)
    (hwf : ∀ t ∈ maps, t.WF) (hN : maps.length ≤ 8190) :
    ∃ data, TLVTableMod.MarshalBinary ⟨c, maps⟩ = .ok data ∧
      data.length = 8 + 8 * maps.length ∧
      TLVTableMod.UnmarshalBinary {} ⟨data, []⟩ = (⟨c, maps⟩, .ok) := by
  refine ⟨_, tlvTableMod_marshal_eq c maps hN, ?_, ?_⟩
  · simp [encodeMaps_length]; omega
  · rw [tlvTableMod_unmarshal_encoded _ _ _ _ _ _ _ _ _ _ _ hwf, uint16_bytes c hc]
    simp

/-- Instance of the amended claim C2: command 1 and the single option
`{class 0x8000, type 0, length 4, index 0}`. -/
theorem tlvTableMod_roundtrip_witness :
    ∃ data, TLVTableMod.MarshalBinary ⟨1, [⟨32768, 0, 4, 0⟩]⟩ = .ok data ∧
      data.length = 8 + 8 * [(⟨32768, 0, 4, 0⟩ : TLVTableMap)].length ∧
      TLVTableMod.UnmarshalBinary {} ⟨data, []⟩ = (⟨1, [⟨32768, 0, 4, 0⟩]⟩, .ok) :=
  tlvTableMod_roundtrip 1 [⟨32768, 0, 4, 0⟩] (by decide)
    (by intro t ht; simp at ht; subst ht; simp [TLVTableMap.WF]) (by decide)

/-- Claim C3 fails in two ways. With 8190 options the 16-bit `Len` wraps to 0 and
`MarshalBinary` panics in `PutUint32`. And a reply decoded from a buffer with a
non-zero reserved byte keeps that byte in `reserved`, while encoding writes zeros
there, so decoding its encoding gives a different value. -/
theorem tlvTableReply_roundtrip_fails :
    TLVTableReply.MarshalBinary ⟨0, 0, List.replicate 10 0, List.replicate 8190 {}⟩
      = .panic .indexOutOfRange ∧
    (TLVTableReply.UnmarshalBinary {}
        ⟨[0, 0, 0, 1, 0, 2, 9, 0, 0, 0, 0, 0, 0, 0, 0, 0], []⟩
      = (⟨1, 2, [9, 0, 0, 0, 0, 0, 0, 0, 0, 0], []⟩, .ok) ∧
     ∃ data, TLVTableReply.MarshalBinary ⟨1, 2, [9, 0, 0, 0, 0, 0, 0, 0, 0, 0], []⟩ = .ok data ∧
      (TLVTableReply.UnmarshalBinary {} ⟨data, []⟩).1
        ≠ ⟨1, 2, [9, 0, 0, 0, 0, 0, 0, 0, 0, 0], []⟩) := by
  have hlen : TLVTableReply.Len ⟨0, 0, List.replicate 10 0, List.replicate 8190 {}⟩ = 0 := by
    have h := tlvMapsLen_eq (List.replicate 8190 {}) 16 (by decide)
    rw [List.length_replicate] at h
    exact h
  refine ⟨?_, by decide, _, rfl, by decide⟩
  simp only [TLVTableReply.MarshalBinary, hlen]
  rfl

/-- Claim C3 as amended: for every reply with at most 8189 options (so that
`16 + 8N` fits the 16-bit `Len`), `MarshalBinary` succeeds and `UnmarshalBinary` of
the bytes into a fresh value gives the same `MaxSpace`, `MaxFields` and options in
the same order, with zero reserved bytes; the result is the encoded value itself
exactly when its reserved bytes are zero. -/
theorem tlvTableReply_roundtrip (x : TLVTableReply) (h1 : x.MaxSpace < 4294967296)
    (h2 : x.MaxFields < 65536) (hwf : ∀ t ∈ x.TlvMaps, t.WF)
    (hN : x.TlvMaps.length ≤ 8189) :
    ∃ data, x.MarshalBinary = .ok data ∧
      TLVTableReply.UnmarshalBinary {} ⟨data, []⟩
        = ({ x with reserved := List.replicate 10 0 }, .ok) ∧
      ((TLVTableReply.UnmarshalBinary {} ⟨data, []⟩).1 = x ↔
        x.reserved = List.replicate 10 0) := by
  have hu : TLVTableReply.UnmarshalBinary {}
      ⟨[(x.MaxSpace >>> 24) % 256, (x.MaxSpace >>> 16) % 256, (x.MaxSpace >>> 8) % 256,
          x.MaxSpace % 256, (x.MaxFields >>> 8) % 256, x.MaxFields % 256,
          0, 0, 0, 0, 0, 0, 0, 0, 0, 0] ++ encodeMaps x.TlvMaps, []⟩
      = ({ x with reserved := List.replicate 10 0 }, .ok) := by
    rw [tlvTableReply_unmarshal_encoded _ _ _ _ _ _ _ _ _ _ _ _ _ _ _ _ _ _ _ hwf,
      uint32_bytes _ h1, uint16_bytes _ h2]
    simp [List.replicate]
  refine ⟨_, tlvTableReply_marshal_eq x hN, hu, ?_⟩
  rw [hu]
  cases x
  simp [eq_comm]

/-- Instance of the amended claim C3: the largest scalar fields and two options. -/
theorem tlvTableReply_roundtrip_witness :
    ∃ data,
      TLVTableReply.MarshalBinary
        ⟨4294967295, 65535, List.replicate 10 0, [⟨32768, 0, 4, 0⟩, ⟨65535, 255, 255, 65535⟩]⟩
        = .ok data ∧
      TLVTableReply.UnmarshalBinary {} ⟨data, []⟩
        = ({ (⟨4294967295, 65535, List.replicate 10 0,
              [⟨32768, 0, 4, 0⟩, ⟨65535, 255, 255, 65535⟩]⟩ : TLVTableReply) with
              reserved := List.replicate 10 0 }, .ok) ∧
      ((TLVTableReply.UnmarshalBinary {} ⟨data, []⟩).1
          = ⟨4294967295, 65535, List.replicate 10 0,
              [⟨32768, 0, 4, 0⟩, ⟨65535, 255, 255, 65535⟩]⟩ ↔
        (⟨4294967295, 65535, List.replicate 10 0,
          [⟨32768, 0, 4, 0⟩, ⟨65535, 255, 255, 65535⟩]⟩ : TLVTableReply).reserved
          = List.replicate 10 0) :=
  tlvTableReply_roundtrip
    ⟨4294967295, 65535, List.replicate 10 0, [⟨32768, 0, 4, 0⟩, ⟨65535, 255, 255, 65535⟩]⟩
    (by decide) (by decide)
    (by intro t ht; simp at ht; rcases ht with ht | ht <;> subst ht <;> simp [TLVTableMap.WF])
    (by decide)

/-! ## Round trip of the eviction-importance instruction -/

/-- Claim C4 fails at the value the factory builds: its header length is 16,
encoding writes 18, so the decoded value has header length 18 and differs from the
value that was encoded. -/
theorem evictionImportance_roundtrip_changes_length :
    ∃ data,
      (EvictionImportanceInstruction.MarshalBinary
        (NewEvictionImportanceInstruction 65535 1330529792 7)).2 = .ok data ∧
      EvictionImportanceInstruction.UnmarshalBinary {} ⟨data, []⟩
        = (⟨some ⟨65535, 18⟩, 1330529792, 1920, 7⟩, .ok) ∧
      (EvictionImportanceInstruction.UnmarshalBinary {} ⟨data, []⟩).1
        ≠ NewEvictionImportanceInstruction 65535 1330529792 7 :=
  ⟨_, rfl, by decide, by decide⟩

/-- Claim C4 as amended: for every instruction with a header, `MarshalBinary`
stores 18 in the header length of the encoded value and returns 18 bytes, and
`UnmarshalBinary` of them into a fresh value gives the encoded value with header
length 18; that is the value it started from exactly when its stored header length
was 18. -/
theorem evictionImportance_roundtrip (ty len v e imp : Nat) (hty : ty < 65536)
    (_hlen : len < 65536) (hv : v < 4294967296) (he : e < 4294967296) (himp : imp < 65536) :
    ∃ data,
      EvictionImportanceInstruction.MarshalBinary ⟨some ⟨ty, len⟩, v, e, imp⟩
        = (⟨some ⟨ty, 18⟩, v, e, imp⟩, .ok data) ∧
      data.length = 18 ∧
      EvictionImportanceInstruction.UnmarshalBinary {} ⟨data, []⟩
        = (⟨some ⟨ty, 18⟩, v, e, imp⟩, .ok) ∧
      ((EvictionImportanceInstruction.UnmarshalBinary {} ⟨data, []⟩).1
        = ⟨some ⟨ty, len⟩, v, e, imp⟩ ↔ len = 18) := by
  have hu : EvictionImportanceInstruction.UnmarshalBinary {}
      ⟨[(ty >>> 8) % 256, ty % 256, 0, 18,
        (v >>> 24) % 256, (v >>> 16) % 256, (v >>> 8) % 256, v % 256,
        (e >>> 24) % 256, (e >>> 16) % 256, (e >>> 8) % 256, e % 256,
        (imp >>> 8) % 256, imp % 256, 0, 0, 0, 0], []⟩
      = (⟨some ⟨ty, 18⟩, v, e, imp⟩, .ok) := by
    simp [EvictionImportanceInstruction.UnmarshalBinary, Slice.slice, Slice.cap,
      InstrHeader.UnmarshalBinary, InstrHeader.Len, Slice.len, uint16At, uint32At,
      Slice.sliceFrom, BigEndian.Uint16, BigEndian.Uint32, uint16_bytes _ hty,
      uint16_bytes _ himp, uint32_bytes _ hv, uint32_bytes _ he]
  refine ⟨_, ?_, ?_, hu, ?_⟩
  · simp [EvictionImportanceInstruction.MarshalBinary, EvictionImportanceInstruction.Len,
      InstrHeader.Len, InstrHeader.MarshalBinary, makeBytes, List.replicate, putUint16At,
      putUint32At, copyBytes]
  · rfl
  · rw [hu]
    simp [eq_comm]

/-- Instance of the amended claim C4 at the value the factory builds for
importance 7. -/
theorem evictionImportance_roundtrip_witness :
    ∃ data,
      EvictionImportanceInstruction.MarshalBinary ⟨some ⟨65535, 16⟩, 1330529792, 1920, 7⟩
        = (⟨some ⟨65535, 18⟩, 1330529792, 1920, 7⟩, .ok data) ∧
      data.length = 18 ∧
      EvictionImportanceInstruction.UnmarshalBinary {} ⟨data, []⟩
        = (⟨some ⟨65535, 18⟩, 1330529792, 1920, 7⟩, .ok) ∧
      ((EvictionImportanceInstruction.UnmarshalBinary {} ⟨data, []⟩).1
        = ⟨some ⟨65535, 16⟩, 1330529792, 1920, 7⟩ ↔ 16 = 18) :=
  evictionImportance_roundtrip 65535 16 1330529792 1920 7 (by decide) (by decide)
    (by decide) (by decide) (by decide)

/-! ## Factories and dispatch -/

/-- Claim C11, code at the failing input: the envelope of
`NewGetFlowEvictionReplyMessage(3)` carries type 1927 and a `GetFlowEviction`
payload, that payload encodes to `03 00 00 00 00 00 00 00`, and `decodeVendorData`
at type 1927 on those bytes returns a `SetFlowEviction` with table 3 and the flag
off, a payload of another concrete type. -/
theorem getFlowEvictionReply_decoded_as_setFlowEviction :
    (NewGetFlowEvictionReplyMessage sampleBase sampleBundles 3).ExperimenterType = 1927 ∧
    (NewGetFlowEvictionReplyMessage sampleBase sampleBundles 3).VendorData
      = some (.getFlowEviction ⟨3⟩) ∧
    Message.MarshalBinary (.getFlowEviction ⟨3⟩ : Message sampleBundles)
      = some (.ok [3, 0, 0, 0, 0, 0, 0, 0]) ∧
    decodeVendorData sampleBundles
        (NewGetFlowEvictionReplyMessage sampleBase sampleBundles 3).ExperimenterType
        ⟨[3, 0, 0, 0, 0, 0, 0, 0], []⟩
      = .ok (.setFlowEviction ⟨3, false⟩) :=
  ⟨rfl, rfl, rfl, rfl⟩

/-- Claim C17: every factory returns an envelope with the vendor ID of its family,
the experimenter-type code of its message and the payload built from its
arguments. -/
theorem factories_build_consistent_envelopes (E : BaseDecls) (B : BundleDecls)
    (id t : Nat) (e : Bool) (m : TLVTableMod) :
    ((NewSetControllerID E B id).Vendor = E.NxExperimenterID ∧
      (NewSetControllerID E B id).ExperimenterType = Type_SetControllerId ∧
      Type_SetControllerId = 20 ∧
      (NewSetControllerID E B id).VendorData = some (.controllerID ⟨id⟩)) ∧
    ((NewTLVTableModMessage E B m).Vendor = E.NxExperimenterID ∧
      (NewTLVTableModMessage E B m).ExperimenterType = Type_TlvTableMod ∧
      Type_TlvTableMod = 24 ∧
      (NewTLVTableModMessage E B m).VendorData = some (.tlvTableMod m)) ∧
    ((NewSetFlowEvictionMessage E B t e).Vendor = E.ONF_EXPERIMENTER_ID ∧
      (NewSetFlowEvictionMessage E B t e).ExperimenterType = ONF_ET_SET_EVICTION ∧
      ONF_ET_SET_EVICTION = 1925 ∧
      (NewSetFlowEvictionMessage E B t e).VendorData = some (.setFlowEviction ⟨t, e⟩)) ∧
    ((NewGetFlowEvictionRequestMessage E B t).Vendor = E.ONF_EXPERIMENTER_ID ∧
      (NewGetFlowEvictionRequestMessage E B t).ExperimenterType = 1926 ∧
      (NewGetFlowEvictionRequestMessage E B t).VendorData = some (.getFlowEviction ⟨t⟩)) ∧
    ((NewGetFlowEvictionReplyMessage E B t).Vendor = E.ONF_EXPERIMENTER_ID ∧
      (NewGetFlowEvictionReplyMessage E B t).ExperimenterType = 1927 ∧
      (NewGetFlowEvictionReplyMessage E B t).VendorData = some (.getFlowEviction ⟨t⟩)) :=
  ⟨⟨rfl, rfl, rfl, rfl⟩, ⟨rfl, rfl, rfl, rfl⟩, ⟨rfl, rfl, rfl, rfl⟩, ⟨rfl, rfl, rfl⟩,
    ⟨rfl, rfl, rfl⟩⟩

/-! ## The eviction-importance instruction -/

/-- Claim C12: `AddAction` returns its error for every action and both values of
the prepend flag, and the instruction it hands back is the one it was given. -/
theorem addAction_not_supported {Action : Type} (i : EvictionImportanceInstruction)
    (act : Action) (prepend : Bool) :
    (i.AddAction act prepend).2 = .error .notSupported ∧
    (i.AddAction act prepend).1 = i :=
  ⟨rfl, rfl⟩

/-- Claim C15: whatever length the header holds, `MarshalBinary` stores 18 in it,
changes no other field and returns 18 bytes: header type, length 18, vendor ID,
experimenter type and importance, all big-endian, then four zero bytes; so it is
for the instruction the factory builds with length 16. -/
theorem evictionImportance_marshal_layout (ty len v e imp : Nat) :
    EvictionImportanceInstruction.Len ⟨some ⟨ty, len⟩, v, e, imp⟩ = .ok 18 ∧
    EvictionImportanceInstruction.MarshalBinary ⟨some ⟨ty, len⟩, v, e, imp⟩
      = (⟨some ⟨ty, 18⟩, v, e, imp⟩,
          .ok [(ty >>> 8) % 256, ty % 256, 0, 18,
            (v >>> 24) % 256, (v >>> 16) % 256, (v >>> 8) % 256, v % 256,
            (e >>> 24) % 256, (e >>> 16) % 256, (e >>> 8) % 256, e % 256,
            (imp >>> 8) % 256, imp % 256, 0, 0, 0, 0]) ∧
    NewEvictionImportanceInstruction ty v imp = ⟨some ⟨ty, 16⟩, v, 1920, imp⟩ ∧
    (EvictionImportanceInstruction.MarshalBinary
      (NewEvictionImportanceInstruction ty v imp)).1 = ⟨some ⟨ty, 18⟩, v, 1920, imp⟩ := by
  have hm : ∀ l x : Nat,
      EvictionImportanceInstruction.MarshalBinary ⟨some ⟨ty, l⟩, v, x, imp⟩
        = (⟨some ⟨ty, 18⟩, v, x, imp⟩,
            .ok [(ty >>> 8) % 256, ty % 256, 0, 18,
              (v >>> 24) % 256, (v >>> 16) % 256, (v >>> 8) % 256, v % 256,
              (x >>> 24) % 256, (x >>> 16) % 256, (x >>> 8) % 256, x % 256,
              (imp >>> 8) % 256, imp % 256, 0, 0, 0, 0]) := by
    intro l x
    simp [EvictionImportanceInstruction.MarshalBinary, EvictionImportanceInstruction.Len,
      InstrHeader.Len, InstrHeader.MarshalBinary, makeBytes, List.replicate, putUint16At,
      putUint32At, copyBytes]
  have hn : NewEvictionImportanceInstruction ty v imp = ⟨some ⟨ty, 16⟩, v, 1920, imp⟩ := rfl
  refine ⟨rfl, hm len e, hn, ?_⟩
  rw [hn, hm 16 1920]

/-! ## SetFlowEviction on the wire -/

/-- Claim C13: `SetFlowEviction.MarshalBinary` returns the 8 bytes table ID, flag as
1 or 0, six zeros; `{3, true}` gives `03 01 00 00 00 00 00 00`, which decodes to
`{3, true}`. -/
theorem setFlowEviction_layout (t : Nat) (e : Bool) :
    SetFlowEviction.MarshalBinary ⟨t, e⟩
      = .ok [t, if e then 1 else 0, 0, 0, 0, 0, 0, 0] ∧
    SetFlowEviction.MarshalBinary ⟨3, true⟩ = .ok [3, 1, 0, 0, 0, 0, 0, 0] ∧
    SetFlowEviction.UnmarshalBinary {} ⟨[3, 1, 0, 0, 0, 0, 0, 0], []⟩ = (⟨3, true⟩, .ok) :=
  ⟨rfl, rfl, rfl⟩

theorem list_length_eight (b : List Nat) (h : b.length = 8) :
    ∃ b0 b1 b2 b3 b4 b5 b6 b7, b = [b0, b1, b2, b3, b4, b5, b6, b7] := by
  rcases b with _ | ⟨b0, _ | ⟨b1, _ | ⟨b2, _ | ⟨b3, _ | ⟨b4, _ | ⟨b5, _ | ⟨b6, _ | ⟨b7, _ | ⟨b8, r⟩⟩⟩⟩⟩⟩⟩⟩⟩
    <;> simp at h
  exact ⟨b0, b1, b2, b3, b4, b5, b6, b7, rfl⟩

/-- Claim C20: on every 8-byte buffer `SetFlowEviction.UnmarshalBinary` succeeds and
reads the flag as "byte 1 is not zero"; encoding the decoded value gives the buffer
back exactly when byte 1 is 0 or 1 and bytes 2..7 are zero, and in every case the
re-encoding decodes to the same value. -/
theorem setFlowEviction_reencode (b spare : List Nat) (hb : b.length = 8) :
    (SetFlowEviction.UnmarshalBinary {} ⟨b, spare⟩).2 = .ok ∧
    (SetFlowEviction.UnmarshalBinary {} ⟨b, spare⟩).1.EvictionEnabled = (b.getD 1 0 != 0) ∧
    ∃ data, (SetFlowEviction.UnmarshalBinary {} ⟨b, spare⟩).1.MarshalBinary = .ok data ∧
      (data = b ↔
        ((b.getD 1 0 = 0 ∨ b.getD 1 0 = 1) ∧ b.drop 2 = [0, 0, 0, 0, 0, 0])) ∧
      SetFlowEviction.UnmarshalBinary {} ⟨data, []⟩
        = SetFlowEviction.UnmarshalBinary {} ⟨b, spare⟩ := by
  obtain ⟨b0, b1, b2, b3, b4, b5, b6, b7, rfl⟩ := list_length_eight b hb
  have hu : SetFlowEviction.UnmarshalBinary {} ⟨[b0, b1, b2, b3, b4, b5, b6, b7], spare⟩
      = (⟨b0, b1 != 0⟩, .ok) := by
    simp [SetFlowEviction.UnmarshalBinary, SetFlowEviction.Len, Slice.len, Slice.index]
  rw [hu]
  refine ⟨rfl, rfl, [b0, if (b1 != 0) = true then 1 else 0, 0, 0, 0, 0, 0, 0], rfl, ?_, ?_⟩
  · by_cases h1 : b1 = 0
    · subst h1; simp [eq_comm]
    · simp [h1]
      constructor
      · rintro ⟨h, rfl, rfl, rfl, rfl, rfl, rfl⟩
        exact ⟨h.symm, rfl, rfl, rfl, rfl, rfl, rfl⟩
      · rintro ⟨h, rfl, rfl, rfl, rfl, rfl, rfl⟩
        exact ⟨h.symm, rfl, rfl, rfl, rfl, rfl, rfl⟩
  · by_cases h1 : b1 = 0
    · subst h1
      simp [SetFlowEviction.UnmarshalBinary, SetFlowEviction.Len, Slice.len, Slice.index]
    · simp [SetFlowEviction.UnmarshalBinary, SetFlowEviction.Len, Slice.len, Slice.index, h1]

/-- Instance of claim C20 on a buffer with flag byte 7 and a non-zero reserved
byte. -/
theorem setFlowEviction_reencode_witness :
    (SetFlowEviction.UnmarshalBinary {} ⟨[3, 7, 0, 0, 9, 0, 0, 0], []⟩).2 = .ok ∧
    (SetFlowEviction.UnmarshalBinary {} ⟨[3, 7, 0, 0, 9, 0, 0, 0], []⟩).1.EvictionEnabled
      = ([3, 7, 0, 0, 9, 0, 0, 0].getD 1 0 != 0) ∧
    ∃ data,
      (SetFlowEviction.UnmarshalBinary {} ⟨[3, 7, 0, 0, 9, 0, 0, 0], []⟩).1.MarshalBinary
        = .ok data ∧
      (data = [3, 7, 0, 0, 9, 0, 0, 0] ↔
        (([3, 7, 0, 0, 9, 0, 0, 0].getD 1 0 = 0 ∨ [3, 7, 0, 0, 9, 0, 0, 0].getD 1 0 = 1) ∧
          [3, 7, 0, 0, 9, 0, 0, 0].drop 2 = [0, 0, 0, 0, 0, 0])) ∧
      SetFlowEviction.UnmarshalBinary {} ⟨data, []⟩
        = SetFlowEviction.UnmarshalBinary {} ⟨[3, 7, 0, 0, 9, 0, 0, 0], []⟩ :=
  setFlowEviction_reencode [3, 7, 0, 0, 9, 0, 0, 0] [] (by decide)

/-! ## The option loop on arbitrary bytes -/

theorem tlvTableMap_decode_take (b : List Nat) :
    TLVTableMap.decode (b.take 8) = TLVTableMap.decode b := by
  simp [TLVTableMap.decode, List.getD_eq_getElem?_getD, List.getElem?_take]

theorem tlvTableMap_unmarshal_window (b : List Nat) (h : 8 ≤ b.length) :
    (TLVTableMap.UnmarshalBinary {} ⟨b.take 8, []⟩).1 = TLVTableMap.decode b := by
  rw [tlvTableMap_unmarshal_ok _ _ (by simp [Slice.len]; omega)]
  exact tlvTableMap_decode_take b

theorem optionsAt_zero (bytes : List Nat) (n : Nat) : optionsAt bytes n 0 = [] := rfl

theorem optionsAt_succ (bytes : List Nat) (n k : Nat) :
    optionsAt bytes n (k + 1)
      = (TLVTableMap.UnmarshalBinary {} ⟨(bytes.drop n).take 8, []⟩).1
          :: optionsAt bytes (n + 8) k := by
  simp only [optionsAt, List.range_succ_eq_map, List.map_cons, List.map_map]
  congr 1
  apply List.map_congr_left
  intro i _
  simp only [Function.comp_apply, Nat.succ_eq_add_one]
  rw [show n + 8 * (i + 1) = n + 8 + 8 * i by omega]

theorem optionsAt_length (bytes : List Nat) (n k : Nat) : (optionsAt bytes n k).length = k := by
  simp [optionsAt]

/-- With `k` whole options and `r < 8` trailing bytes left from offset `n`, the loop
appends the `k` options read at `n`, `n + 8`, ... and ends with nil when `r = 0`,
with the error of the option decoder otherwise. -/
theorem unmarshalTlvMaps_general (data : Slice) (r : Nat) (hr8 : r < 8) :
    ∀ (k fuel n : Nat) (h : data.len - n < fuel) (acc : List TLVTableMap),
      data.len = n + 8 * k + r →
      unmarshalTlvMaps data fuel n h acc
        = (acc ++ optionsAt data.bytes n k,
            if r = 0 then .ok else .error .shortTLVTableMap) := by
  intro k
  induction k with
  | zero =>
    intro fuel n h acc hlen
    by_cases hr : r = 0
    · rw [unmarshalTlvMaps_done data fuel n h acc (by omega)]
      simp [hr, optionsAt_zero]
    · rw [unmarshalTlvMaps_short data fuel n h acc (by omega) (by omega)]
      simp [hr, optionsAt_zero]
  | succ k ih =>
    intro fuel n h acc hlen
    cases fuel with
    | zero => omega
    | succ fuel =>
      rw [unmarshalTlvMaps_step data fuel n h acc (by omega),
        ih fuel (n + 8) (by omega) _ (by omega), optionsAt_succ,
        tlvTableMap_unmarshal_window _ (by simp only [List.length_drop, Slice.len] at *; omega)]
      simp

theorem uint16At_eq (data : Slice) (n : Nat) (h : n + 2 ≤ data.len) :
    uint16At data n
      = .ok (data.bytes.getD (n + 1) 0 ||| (data.bytes.getD n 0 <<< 8)) := by
  have h1 : n ≤ data.bytes.length := by simp only [Slice.len] at h; omega
  have h2 : 1 < data.bytes.length - n := by simp only [Slice.len] at h; omega
  have h3 : n + 1 < data.bytes.length := by omega
  simp [uint16At, Slice.sliceFrom, BigEndian.Uint16, Slice.len, h1, h2,
    List.getD_eq_getElem?_getD, List.getElem?_drop, List.getElem?_eq_getElem h3]

theorem uint32At_eq (data : Slice) (n : Nat) (h : n + 4 ≤ data.len) :
    uint32At data n
      = .ok (data.bytes.getD (n + 3) 0 ||| (data.bytes.getD (n + 2) 0 <<< 8)
          ||| (data.bytes.getD (n + 1) 0 <<< 16) ||| (data.bytes.getD n 0 <<< 24)) := by
  have h1 : n ≤ data.bytes.length := by simp only [Slice.len] at h; omega
  have h2 : 3 < data.bytes.length - n := by simp only [Slice.len] at h; omega
  have h3 : n + 3 < data.bytes.length := by omega
  simp [uint32At, Slice.sliceFrom, BigEndian.Uint32, Slice.len, h1, h2,
    List.getD_eq_getElem?_getD, List.getElem?_drop, List.getElem?_eq_getElem h3]

theorem tlvTableMod_unmarshal_general (t : TLVTableMod) (data : Slice) (k r : Nat)
    (hlen : data.len = 8 + 8 * k + r) (hr8 : r < 8) :
    t.UnmarshalBinary data
      = (⟨data.bytes.getD 1 0 ||| (data.bytes.getD 0 0 <<< 8),
            t.TlvMaps ++ optionsAt data.bytes 8 k⟩,
          if r = 0 then .ok else .error .shortTLVTableMap) := by
  have h8 : ¬ data.len < 8 := by omega
  have hc := uint16At_eq data 0 (by omega)
  simp only [Nat.zero_add] at hc
  simp only [TLVTableMod.UnmarshalBinary, h8, if_false, hc]
  rw [unmarshalTlvMaps_general data r hr8 k _ _ _ _ (by omega)]

theorem tlvTableReply_unmarshal_general (t : TLVTableReply) (data : Slice) (k r : Nat)
    (hlen : data.len = 16 + 8 * k + r) (hr8 : r < 8) :
    t.UnmarshalBinary data
      = (⟨data.bytes.getD 3 0 ||| (data.bytes.getD 2 0 <<< 8)
            ||| (data.bytes.getD 1 0 <<< 16) ||| (data.bytes.getD 0 0 <<< 24),
          data.bytes.getD 5 0 ||| (data.bytes.getD 4 0 <<< 8),
          (data.bytes.take 16).drop 6,
          t.TlvMaps ++ optionsAt data.bytes 16 k⟩,
          if r = 0 then .ok else .error .shortTLVTableMap) := by
  have h1 := uint32At_eq data 0 (by omega)
  have h2 := uint16At_eq data 4 (by omega)
  have hl : 16 ≤ data.bytes.length := by simp only [Slice.len] at hlen; omega
  have h3 : data.slice 6 (6 + 10)
      = .ok ⟨(data.bytes.take 16).drop 6, (data.bytes ++ data.spare).drop 16⟩ := by
    unfold Slice.slice
    rw [if_pos ⟨by omega, by simp only [Slice.cap]; omega⟩]
    simp [List.take_append_of_le_length hl]
  have h4 : copyBytes (makeBytes 10) ((data.bytes.take 16).drop 6)
      = (data.bytes.take 16).drop 6 := by
    have hx : ((data.bytes.take 16).drop 6).length = 10 := by
      simp only [List.length_drop, List.length_take]; omega
    simp [copyBytes, makeBytes, hx, List.take_of_length_le (Nat.le_of_eq hx)]
  simp only [Nat.zero_add] at h1
  simp only [TLVTableReply.UnmarshalBinary, h1, h2, h3, h4]
  rw [unmarshalTlvMaps_general data r hr8 k _ _ _ _ (by omega)]

theorem optionsAt_encodeMaps (ys : List TLVTableMap) :
    ∀ front : List Nat, (∀ u ∈ ys, u.WF) →
      optionsAt (front ++ encodeMaps ys) front.length ys.length = ys := by
  induction ys with
  | nil => intro front _; rfl
  | cons y rest ih =>
    intro front hwf
    have hlen : y.encode.length = 8 := rfl
    have h2 := ih (front ++ y.encode) (fun u hu => hwf u (List.mem_cons_of_mem _ hu))
    simp only [List.length_append, hlen, List.append_assoc] at h2
    rw [List.length_cons, optionsAt_succ, encodeMaps, List.drop_left,
      tlvTableMap_unmarshal_window _ (by simp [hlen]),
      tlvTableMap_decode_encode y (hwf y (List.mem_cons_self _ _)), h2]

/-! ## Lengths -/

/-- Claim C14 fails for long lists: with 8191 options `TLVTableMod.Len` is 0, not
`8 + 8 × 8191`, and with 8190 options `TLVTableReply.Len` is 0, not `16 + 8 × 8190`. -/
theorem tlv_len_wraps :
    TLVTableMod.Len ⟨1, List.replicate 8191 {}⟩
      ≠ 8 + 8 * (List.replicate 8191 ({} : TLVTableMap)).length ∧
    TLVTableReply.Len ⟨0, 0, List.replicate 10 0, List.replicate 8190 {}⟩
      ≠ 16 + 8 * (List.replicate 8190 ({} : TLVTableMap)).length := by
  have h1 : TLVTableMod.Len ⟨1, List.replicate 8191 {}⟩ = 0 := by
    have h := tlvMapsLen_eq (List.replicate 8191 {}) 8 (by decide)
    rw [List.length_replicate] at h
    exact h
  have h2 : TLVTableReply.Len ⟨0, 0, List.replicate 10 0, List.replicate 8190 {}⟩ = 0 := by
    have h := tlvMapsLen_eq (List.replicate 8190 {}) 16 (by decide)
    rw [List.length_replicate] at h
    exact h
  rw [h1, h2, List.length_replicate, List.length_replicate]
  exact ⟨by decide, by decide⟩

/-- Claim C14 as amended: `TLVTableMod.Len` is `8 + 8N` reduced modulo `65536` and
`TLVTableReply.Len` is `16 + 8N` reduced modulo `65536`; for at most 8190 options
of a `TLVTableMod` and at most 8189 of a `TLVTableReply` they are `8 + 8N` and
`16 + 8N`, and `MarshalBinary` returns exactly that many bytes. -/
theorem tlv_len_within_uint16 (c : Nat) (maps : List TLVTableMap) (x : TLVTableReply)
    (hMod : maps.length ≤ 8190) (hReply : x.TlvMaps.length ≤ 8189) :
    (TLVTableMod.Len ⟨c, maps⟩ = 8 + 8 * maps.length ∧
      ∃ data, TLVTableMod.MarshalBinary ⟨c, maps⟩ = .ok data ∧
        data.length = 8 + 8 * maps.length) ∧
    (x.Len = 16 + 8 * x.TlvMaps.length ∧
      ∃ data, x.MarshalBinary = .ok data ∧ data.length = 16 + 8 * x.TlvMaps.length) ∧
    (∀ (d : Nat) (ms : List TLVTableMap),
      TLVTableMod.Len ⟨d, ms⟩ = (8 + 8 * ms.length) % 65536) ∧
    (∀ y : TLVTableReply, y.Len = (16 + 8 * y.TlvMaps.length) % 65536) := by
  have hm : ∀ (d : Nat) (ms : List TLVTableMap),
      TLVTableMod.Len ⟨d, ms⟩ = (8 + 8 * ms.length) % 65536 :=
    fun _ ms => tlvMapsLen_eq ms 8 (by decide)
  have hr : ∀ y : TLVTableReply, y.Len = (16 + 8 * y.TlvMaps.length) % 65536 :=
    fun y => tlvMapsLen_eq y.TlvMaps 16 (by decide)
  refine ⟨⟨?_, _, tlvTableMod_marshal_eq c maps hMod, ?_⟩,
    ⟨?_, _, tlvTableReply_marshal_eq x hReply, ?_⟩, hm, hr⟩
  · rw [hm]; exact Nat.mod_eq_of_lt (by omega)
  · simp [encodeMaps_length]; omega
  · rw [hr]; exact Nat.mod_eq_of_lt (by omega)
  · simp [encodeMaps_length]; omega

/-- Instance of the amended claim C14: one option in each message. -/
theorem tlv_len_within_uint16_witness :
    (TLVTableMod.Len ⟨1, [⟨32768, 0, 4, 0⟩]⟩ = 8 + 8 * [(⟨32768, 0, 4, 0⟩ : TLVTableMap)].length ∧
      ∃ data, TLVTableMod.MarshalBinary ⟨1, [⟨32768, 0, 4, 0⟩]⟩ = .ok data ∧
        data.length = 8 + 8 * [(⟨32768, 0, 4, 0⟩ : TLVTableMap)].length) ∧
    ((⟨9, 2, List.replicate 10 0, [⟨32768, 0, 4, 0⟩]⟩ : TLVTableReply).Len
        = 16 + 8 * (⟨9, 2, List.replicate 10 0, [⟨32768, 0, 4, 0⟩]⟩ : TLVTableReply).TlvMaps.length ∧
      ∃ data, (⟨9, 2, List.replicate 10 0, [⟨32768, 0, 4, 0⟩]⟩ : TLVTableReply).MarshalBinary
          = .ok data ∧
        data.length
          = 16 + 8 * (⟨9, 2, List.replicate 10 0, [⟨32768, 0, 4, 0⟩]⟩ : TLVTableReply).TlvMaps.length) ∧
    (∀ (d : Nat) (ms : List TLVTableMap),
      TLVTableMod.Len ⟨d, ms⟩ = (8 + 8 * ms.length) % 65536) ∧
    (∀ y : TLVTableReply, y.Len = (16 + 8 * y.TlvMaps.length) % 65536) :=
  tlv_len_within_uint16 1 [⟨32768, 0, 4, 0⟩] ⟨9, 2, List.replicate 10 0, [⟨32768, 0, 4, 0⟩]⟩
    (by decide) (by decide)

/-! ## Decoding a buffer of whole options -/

/-- Claim C18: on every buffer of exactly `8 + 8N` bytes `TLVTableMod.UnmarshalBinary`
into a fresh value returns nil with `Command` read big-endian from bytes 0 and 1
and exactly `N` options, option `i` being the `TLVTableMap` decoded from the 8
bytes at offset `8 + 8i`; from the offset of option `j` the loop reads the `N - j`
options that remain and returns when no byte is left. -/
theorem tlvTableMod_unmarshal_exact (data : Slice) (N : Nat) (hlen : data.len = 8 + 8 * N) :
    TLVTableMod.UnmarshalBinary {} data
      = (⟨data.bytes.getD 1 0 ||| (data.bytes.getD 0 0 <<< 8), optionsAt data.bytes 8 N⟩,
          .ok) ∧
    (optionsAt data.bytes 8 N).length = N ∧
    (∀ i, i < N →
      (optionsAt data.bytes 8 N).getD i {}
        = (TLVTableMap.UnmarshalBinary {} ⟨(data.bytes.drop (8 + 8 * i)).take 8, []⟩).1) ∧
    (data.bytes.getD 1 0 < 256 →
      data.bytes.getD 1 0 ||| (data.bytes.getD 0 0 <<< 8)
        = 256 * data.bytes.getD 0 0 + data.bytes.getD 1 0) ∧
    (∀ (j fuel : Nat) (h : data.len - (8 + 8 * j) < fuel) (acc : List TLVTableMap), j ≤ N →
      unmarshalTlvMaps data fuel (8 + 8 * j) h acc
        = (acc ++ optionsAt data.bytes (8 + 8 * j) (N - j), .ok)) := by
  refine ⟨?_, optionsAt_length _ _ _, ?_, ?_, ?_⟩
  · rw [tlvTableMod_unmarshal_general {} data N 0 (by omega) (by decide)]
    simp
  · intro i hi
    simp [optionsAt, List.getD_eq_getElem?_getD, List.getElem?_range hi]
  · intro h1
    rw [Nat.shiftLeft_eq, Nat.lor_comm, Nat.mul_comm,
      ← Nat.mul_add_lt_is_or (show data.bytes.getD 1 0 < 2 ^ 8 from h1)]
  · intro j fuel h acc hj
    rw [unmarshalTlvMaps_general data 0 (by decide) (N - j) fuel _ h acc (by omega)]
    simp

/-- Instance of claim C18: a 16-byte buffer, one option. -/
theorem tlvTableMod_unmarshal_exact_witness :
    TLVTableMod.UnmarshalBinary {} ⟨[0, 1, 7, 7, 7, 7, 7, 7, 128, 0, 0, 4, 0, 0, 9, 9], []⟩
      = (⟨1, [⟨32768, 0, 4, 0⟩]⟩, .ok) :=
  (tlvTableMod_unmarshal_exact ⟨[0, 1, 7, 7, 7, 7, 7, 7, 128, 0, 0, 4, 0, 0, 9, 9], []⟩ 1
    (by decide)).1.trans (by decide)

/-! ## Decoding into a receiver that already holds options -/

theorem tlvTableMod_unmarshal_carrying (t : TLVTableMod) (data : Slice)
    (hdr : List Nat) (ys : List TLVTableMap) (hh : hdr.length = 8)
    (hb : data.bytes = hdr ++ encodeMaps ys) (hwf : ∀ u ∈ ys, u.WF) :
    t.UnmarshalBinary data
      = (⟨data.bytes.getD 1 0 ||| (data.bytes.getD 0 0 <<< 8), t.TlvMaps ++ ys⟩, .ok) := by
  have hlen : data.len = 8 + 8 * ys.length + 0 := by
    simp [Slice.len, hb, hh, encodeMaps_length]
  have ho : optionsAt data.bytes 8 ys.length = ys := by
    rw [hb, ← hh]
    exact optionsAt_encodeMaps ys hdr hwf
  rw [tlvTableMod_unmarshal_general t data ys.length 0 hlen (by decide), ho]
  simp

theorem tlvTableReply_unmarshal_carrying (t : TLVTableReply) (data : Slice)
    (hdr : List Nat) (ys : List TLVTableMap) (hh : hdr.length = 16)
    (hb : data.bytes = hdr ++ encodeMaps ys) (hwf : ∀ u ∈ ys, u.WF) :
    t.UnmarshalBinary data
      = (⟨data.bytes.getD 3 0 ||| (data.bytes.getD 2 0 <<< 8)
            ||| (data.bytes.getD 1 0 <<< 16) ||| (data.bytes.getD 0 0 <<< 24),
          data.bytes.getD 5 0 ||| (data.bytes.getD 4 0 <<< 8),
          (data.bytes.take 16).drop 6, t.TlvMaps ++ ys⟩, .ok) := by
  have hlen : data.len = 16 + 8 * ys.length + 0 := by
    simp [Slice.len, hb, hh, encodeMaps_length]
  have ho : optionsAt data.bytes 16 ys.length = ys := by
    rw [hb, ← hh]
    exact optionsAt_encodeMaps ys hdr hwf
  rw [tlvTableReply_unmarshal_general t data ys.length 0 hlen (by decide), ho]
  simp

/-- Claim C19: `TLVTableMod.UnmarshalBinary` and `TLVTableReply.UnmarshalBinary`
append to the option list of the receiver. On a buffer that carries the options
`ys` after its header, a receiver holding `xs` ends with `xs ++ ys` and nil, and
decoding the same buffer once more ends with `xs ++ ys ++ ys`. On a buffer with `k`
whole options and a fragment of `r` bytes, `0 < r < 8`, the call returns the error
of the option decoder with the header fields overwritten from the buffer and the
`k` options appended to `xs`. -/
theorem unmarshal_appends_options (xs ys : List TLVTableMap) (hwf : ∀ u ∈ ys, u.WF)
    (c0 ms0 mf0 : Nat) (res0 : List Nat)
    (wellMod wellReply : Slice) (hdrMod hdrReply : List Nat)
    (hM : hdrMod.length = 8) (hR : hdrReply.length = 16)
    (hwm : wellMod.bytes = hdrMod ++ encodeMaps ys)
    (hwr : wellReply.bytes = hdrReply ++ encodeMaps ys)
    (badMod badReply : Slice) (k r : Nat) (hr : 0 < r) (hr8 : r < 8)
    (hbm : badMod.len = 8 + 8 * k + r) (hbr : badReply.len = 16 + 8 * k + r) :
    ((TLVTableMod.UnmarshalBinary ⟨c0, xs⟩ wellMod).2 = .ok ∧
      (TLVTableMod.UnmarshalBinary ⟨c0, xs⟩ wellMod).1.TlvMaps = xs ++ ys ∧
      (TLVTableMod.UnmarshalBinary
        (TLVTableMod.UnmarshalBinary ⟨c0, xs⟩ wellMod).1 wellMod).2 = .ok ∧
      (TLVTableMod.UnmarshalBinary
        (TLVTableMod.UnmarshalBinary ⟨c0, xs⟩ wellMod).1 wellMod).1.TlvMaps
          = xs ++ ys ++ ys) ∧
    ((TLVTableReply.UnmarshalBinary ⟨ms0, mf0, res0, xs⟩ wellReply).2 = .ok ∧
      (TLVTableReply.UnmarshalBinary ⟨ms0, mf0, res0, xs⟩ wellReply).1.TlvMaps = xs ++ ys ∧
      (TLVTableReply.UnmarshalBinary
        (TLVTableReply.UnmarshalBinary ⟨ms0, mf0, res0, xs⟩ wellReply).1 wellReply).2 = .ok ∧
      (TLVTableReply.UnmarshalBinary
        (TLVTableReply.UnmarshalBinary ⟨ms0, mf0, res0, xs⟩ wellReply).1 wellReply).1.TlvMaps
          = xs ++ ys ++ ys) ∧
    TLVTableMod.UnmarshalBinary ⟨c0, xs⟩ badMod
      = (⟨badMod.bytes.getD 1 0 ||| (badMod.bytes.getD 0 0 <<< 8),
            xs ++ optionsAt badMod.bytes 8 k⟩, .error .shortTLVTableMap) ∧
    TLVTableReply.UnmarshalBinary ⟨ms0, mf0, res0, xs⟩ badReply
      = (⟨badReply.bytes.getD 3 0 ||| (badReply.bytes.getD 2 0 <<< 8)
            ||| (badReply.bytes.getD 1 0 <<< 16) ||| (badReply.bytes.getD 0 0 <<< 24),
          badReply.bytes.getD 5 0 ||| (badReply.bytes.getD 4 0 <<< 8),
          (badReply.bytes.take 16).drop 6,
          xs ++ optionsAt badReply.bytes 16 k⟩, .error .shortTLVTableMap) ∧
    (optionsAt badMod.bytes 8 k).length = k ∧
    (optionsAt badReply.bytes 16 k).length = k := by
  have hr0 : r ≠ 0 := by omega
  refine ⟨?_, ?_, ?_, ?_, optionsAt_length _ _ _, optionsAt_length _ _ _⟩
  · simp [tlvTableMod_unmarshal_carrying _ wellMod hdrMod ys hM hwm hwf]
  · simp [tlvTableReply_unmarshal_carrying _ wellReply hdrReply ys hR hwr hwf]
  · rw [tlvTableMod_unmarshal_general _ badMod k r hbm hr8, if_neg hr0]
  · rw [tlvTableReply_unmarshal_general _ badReply k r hbr hr8, if_neg hr0]

/-- Instance of claim C19: receivers holding one option, buffers carrying one
option, and buffers with one whole option followed by three bytes. -/
theorem unmarshal_appends_options_witness :
    (TLVTableMod.UnmarshalBinary
        (TLVTableMod.UnmarshalBinary ⟨9, [⟨1, 2, 3, 4⟩]⟩
          ⟨[0, 1, 0, 0, 0, 0, 0, 0, 128, 0, 0, 4, 0, 0, 0, 0], []⟩).1
        ⟨[0, 1, 0, 0, 0, 0, 0, 0, 128, 0, 0, 4, 0, 0, 0, 0], []⟩).1.TlvMaps
      = [⟨1, 2, 3, 4⟩] ++ [⟨32768, 0, 4, 0⟩] ++ [⟨32768, 0, 4, 0⟩] ∧
    (TLVTableReply.UnmarshalBinary ⟨0, 0, List.replicate 10 0, [⟨1, 2, 3, 4⟩]⟩
        ⟨[0, 0, 0, 9, 0, 2, 0, 0, 0, 0, 0, 0, 0, 0, 0, 0, 128, 0, 0, 4, 0, 0, 0, 0],
          []⟩).1.TlvMaps
      = [⟨1, 2, 3, 4⟩] ++ [⟨32768, 0, 4, 0⟩] ∧
    TLVTableMod.UnmarshalBinary ⟨9, [⟨1, 2, 3, 4⟩]⟩
        ⟨[0, 1, 0, 0, 0, 0, 0, 0, 128, 0, 0, 4, 0, 0, 0, 0, 128, 0, 1], []⟩
      = (⟨1, [⟨1, 2, 3, 4⟩, ⟨32768, 0, 4, 0⟩]⟩, .error .shortTLVTableMap) ∧
    TLVTableReply.UnmarshalBinary ⟨0, 0, List.replicate 10 0, [⟨1, 2, 3, 4⟩]⟩
        ⟨[0, 0, 0, 9, 0, 2, 0, 0, 0, 0, 0, 0, 0, 0, 0, 0,
          128, 0, 0, 4, 0, 0, 0, 0, 128, 0, 1], []⟩
      = (⟨9, 2, List.replicate 10 0, [⟨1, 2, 3, 4⟩, ⟨32768, 0, 4, 0⟩]⟩,
          .error .shortTLVTableMap) :=
  have h := unmarshal_appends_options [⟨1, 2, 3, 4⟩] [⟨32768, 0, 4, 0⟩]
    (by intro u hu; simp at hu; subst hu; simp [TLVTableMap.WF])
    9 0 0 (List.replicate 10 0)
    ⟨[0, 1, 0, 0, 0, 0, 0, 0, 128, 0, 0, 4, 0, 0, 0, 0], []⟩
    ⟨[0, 0, 0, 9, 0, 2, 0, 0, 0, 0, 0, 0, 0, 0, 0, 0, 128, 0, 0, 4, 0, 0, 0, 0], []⟩
    [0, 1, 0, 0, 0, 0, 0, 0] [0, 0, 0, 9, 0, 2, 0, 0, 0, 0, 0, 0, 0, 0, 0, 0]
    rfl rfl rfl rfl
    ⟨[0, 1, 0, 0, 0, 0, 0, 0, 128, 0, 0, 4, 0, 0, 0, 0, 128, 0, 1], []⟩
    ⟨[0, 0, 0, 9, 0, 2, 0, 0, 0, 0, 0, 0, 0, 0, 0, 0,
      128, 0, 0, 4, 0, 0, 0, 0, 128, 0, 1], []⟩
    1 3 (by decide) (by decide) rfl rfl
  ⟨h.1.2.2.2, h.2.1.2.1, h.2.2.1.trans (by decide), h.2.2.2.1.trans (by decide)⟩

/-! ## Reserved bytes on decode -/

theorem agreeOffPad_getD (isPad : Nat → Bool) (a b : List Nat)
    (h : agreeOffPad isPad a b) (i : Nat) (hp : isPad i = false) :
    a.getD i 0 = b.getD i 0 := by
  by_cases hi : i < a.length
  · exact h.2 i hi hp
  · have hb : ¬ i < b.length := by rw [← h.1]; exact hi
    simp [List.getD_eq_getElem?_getD, List.getElem?_eq_none (Nat.le_of_not_lt hi),
      List.getElem?_eq_none (Nat.le_of_not_lt hb)]

theorem controllerID_unmarshal_congr (t : ControllerID) (a b : Slice)
    (h : agreeOffPad ControllerID.isPad a.bytes b.bytes) :
    t.UnmarshalBinary a = t.UnmarshalBinary b := by
  have hl : a.len = b.len := h.1
  by_cases hs : a.len < 8
  · simp [ControllerID.UnmarshalBinary, ControllerID.Len, hs, hl ▸ hs]
  · have hs2 : ¬ b.len < 8 := hl ▸ hs
    simp only [ControllerID.UnmarshalBinary, ControllerID.Len, Nat.reduceAdd, Nat.reduceMod,
      hs, hs2, if_false, uint16At_eq a 6 (by omega), uint16At_eq b 6 (by omega)]
    rw [agreeOffPad_getD _ _ _ h 6 (by decide), agreeOffPad_getD _ _ _ h 7 (by decide)]

theorem tlvTableMap_decode_congr (a b : List Nat)
    (h : ∀ j, j < 6 → a.getD j 0 = b.getD j 0) :
    TLVTableMap.decode a = TLVTableMap.decode b := by
  simp only [TLVTableMap.decode, h 0 (by decide), h 1 (by decide), h 2 (by decide),
    h 3 (by decide), h 4 (by decide), h 5 (by decide)]

theorem tlvTableMap_unmarshal_congr (t : TLVTableMap) (a b : Slice)
    (h : agreeOffPad TLVTableMap.isPad a.bytes b.bytes) :
    t.UnmarshalBinary a = t.UnmarshalBinary b := by
  have hl : a.len = b.len := h.1
  by_cases hs : a.len < 8
  · rw [tlvTableMap_unmarshal_short t a hs, tlvTableMap_unmarshal_short t b (hl ▸ hs)]
  · rw [tlvTableMap_unmarshal_ok t a (by omega), tlvTableMap_unmarshal_ok t b (by omega),
      tlvTableMap_decode_congr a.bytes b.bytes
        (fun j hj => agreeOffPad_getD _ _ _ h j (by simp [TLVTableMap.isPad]; omega))]

theorem setFlowEviction_unmarshal_congr (t : SetFlowEviction) (a b : Slice)
    (h : agreeOffPad SetFlowEviction.isPad a.bytes b.bytes) :
    t.UnmarshalBinary a = t.UnmarshalBinary b := by
  have hl : a.len = b.len := h.1
  by_cases hs : a.len < 8
  · simp [SetFlowEviction.UnmarshalBinary, SetFlowEviction.Len, hs, hl ▸ hs]
  · have hs2 : ¬ b.len < 8 := hl ▸ hs
    have h0a : 0 < a.len := by omega
    have h1a : 1 < a.len := by omega
    have h0b : 0 < b.len := by omega
    have h1b : 1 < b.len := by omega
    simp only [SetFlowEviction.UnmarshalBinary, SetFlowEviction.Len, Nat.reduceAdd,
      Nat.reduceMod, hs, hs2, if_false, Slice.index, h0a, h1a, h0b, h1b, if_true]
    rw [agreeOffPad_getD _ _ _ h 0 (by decide), agreeOffPad_getD _ _ _ h 1 (by decide)]

theorem getFlowEviction_unmarshal_congr (t : GetFlowEviction) (a b : Slice)
    (h : agreeOffPad GetFlowEviction.isPad a.bytes b.bytes) :
    t.UnmarshalBinary a = t.UnmarshalBinary b := by
  have hl : a.len = b.len := h.1
  by_cases hs : a.len < 8
  · simp [GetFlowEviction.UnmarshalBinary, GetFlowEviction.Len, hs, hl ▸ hs]
  · have hs2 : ¬ b.len < 8 := hl ▸ hs
    have h0a : 0 < a.len := by omega
    have h0b : 0 < b.len := by omega
    simp only [GetFlowEviction.UnmarshalBinary, GetFlowEviction.Len, Nat.reduceAdd,
      Nat.reduceMod, hs, hs2, if_false, Slice.index, h0a, h0b, if_true]
    rw [agreeOffPad_getD _ _ _ h 0 (by decide)]

theorem getD_drop_add (a : List Nat) (m j : Nat) : (a.drop m).getD j 0 = a.getD (m + j) 0 := by
  simp [List.getD_eq_getElem?_getD, List.getElem?_drop]

theorem optionsAt_congr (isPad : Nat → Bool) (a b : List Nat) (base k : Nat)
    (h : agreeOffPad isPad a b) (hk : base + 8 * k ≤ a.length)
    (hp : ∀ i j, i < k → j < 6 → isPad (base + 8 * i + j) = false) :
    optionsAt a base k = optionsAt b base k := by
  unfold optionsAt
  apply List.map_congr_left
  intro i hi
  have hik : i < k := List.mem_range.mp hi
  have hb : base + 8 * k ≤ b.length := h.1 ▸ hk
  rw [tlvTableMap_unmarshal_window _ (by rw [List.length_drop]; omega),
    tlvTableMap_unmarshal_window _ (by rw [List.length_drop]; omega)]
  apply tlvTableMap_decode_congr
  intro j hj
  rw [getD_drop_add, getD_drop_add]
  exact agreeOffPad_getD isPad a b h _ (hp i j hik hj)

theorem tlvTableMod_isPad_option (i j : Nat) (hj : j < 6) :
    TLVTableMod.isPad (8 + 8 * i + j) = false := by
  have h1 : ¬ (8 + 8 * i + j < 8) := by omega
  have h2 : ¬ (6 ≤ (8 + 8 * i + j - 8) % 8) := by omega
  simp [TLVTableMod.isPad, optionPad, h1, h2]

theorem tlvTableReply_isPad_option (i j : Nat) (hj : j < 6) :
    TLVTableReply.isPad (16 + 8 * i + j) = false := by
  have h1 : ¬ (16 + 8 * i + j < 16) := by omega
  have h2 : ¬ (6 ≤ (16 + 8 * i + j - 16) % 8) := by omega
  simp [TLVTableReply.isPad, optionPad, h1, h2]

theorem tlvTableMod_unmarshal_congr (t : TLVTableMod) (a b : Slice)
    (h : agreeOffPad TLVTableMod.isPad a.bytes b.bytes) :
    t.UnmarshalBinary a = t.UnmarshalBinary b := by
  have hl : a.len = b.len := h.1
  by_cases hs : a.len < 8
  · simp [TLVTableMod.UnmarshalBinary, hs, hl ▸ hs]
  · have ha : a.len = 8 + 8 * ((a.len - 8) / 8) + (a.len - 8) % 8 := by omega
    have hb : b.len = 8 + 8 * ((a.len - 8) / 8) + (a.len - 8) % 8 := by omega
    have hr : (a.len - 8) % 8 < 8 := Nat.mod_lt _ (by decide)
    rw [tlvTableMod_unmarshal_general t a _ _ ha hr,
      tlvTableMod_unmarshal_general t b _ _ hb hr,
      agreeOffPad_getD _ _ _ h 0 (by decide), agreeOffPad_getD _ _ _ h 1 (by decide),
      optionsAt_congr TLVTableMod.isPad a.bytes b.bytes 8 _ h
        (by have hq : a.len = a.bytes.length := rfl; omega)
        (fun i j _ hj => tlvTableMod_isPad_option i j hj)]

/-- On buffers of at least 16 bytes that agree off the reserved offsets, the two
decodes of `TLVTableReply` end the same way and differ at most in `reserved`, where
each keeps bytes 6..15 of its own buffer. -/
theorem tlvTableReply_unmarshal_congr (t : TLVTableReply) (a b : Slice)
    (h : agreeOffPad TLVTableReply.isPad a.bytes b.bytes) (h16 : 16 ≤ a.len) :
    (t.UnmarshalBinary a).2 = (t.UnmarshalBinary b).2 ∧
    (t.UnmarshalBinary a).1.MaxSpace = (t.UnmarshalBinary b).1.MaxSpace ∧
    (t.UnmarshalBinary a).1.MaxFields = (t.UnmarshalBinary b).1.MaxFields ∧
    (t.UnmarshalBinary a).1.TlvMaps = (t.UnmarshalBinary b).1.TlvMaps ∧
    (t.UnmarshalBinary a).1.reserved = (a.bytes.take 16).drop 6 ∧
    (t.UnmarshalBinary b).1.reserved = (b.bytes.take 16).drop 6 := by
  have hl : a.len = b.len := h.1
  have ha : a.len = 16 + 8 * ((a.len - 16) / 8) + (a.len - 16) % 8 := by omega
  have hb : b.len = 16 + 8 * ((a.len - 16) / 8) + (a.len - 16) % 8 := by omega
  have hr : (a.len - 16) % 8 < 8 := Nat.mod_lt _ (by decide)
  rw [tlvTableReply_unmarshal_general t a _ _ ha hr,
    tlvTableReply_unmarshal_general t b _ _ hb hr,
    agreeOffPad_getD _ _ _ h 0 (by decide), agreeOffPad_getD _ _ _ h 1 (by decide),
    agreeOffPad_getD _ _ _ h 2 (by decide), agreeOffPad_getD _ _ _ h 3 (by decide),
    agreeOffPad_getD _ _ _ h 4 (by decide), agreeOffPad_getD _ _ _ h 5 (by decide),
    optionsAt_congr TLVTableReply.isPad a.bytes b.bytes 16 _ h
      (by have hq : a.len = a.bytes.length := rfl; omega)
      (fun i j _ hj => tlvTableReply_isPad_option i j hj)]
  exact ⟨rfl, rfl, rfl, rfl, rfl, rfl⟩

theorem tlvTableReply_marshal_ignores_reserved (x y : TLVTableReply)
    (h1 : x.MaxSpace = y.MaxSpace) (h2 : x.MaxFields = y.MaxFields)
    (h3 : x.TlvMaps = y.TlvMaps) : x.MarshalBinary = y.MarshalBinary := by
  simp only [TLVTableReply.MarshalBinary, TLVTableReply.Len, h1, h2, h3]

/-! ## Reserved bytes on encode -/

theorem copyAt_getElem? (data src out : List Nat) (n : Nat) (h : copyAt data n src = .ok out)
    (i : Nat) :
    out[i]? = if i < n then data[i]?
      else if i - n < src.length ∧ i < data.length then src[i - n]? else data[i]? := by
  unfold copyAt at h
  split at h
  · injection h with h
    subst h
    simp only [copyBytes, List.getElem?_append, List.length_take, List.length_drop,
      List.getElem?_take, List.getElem?_drop]
    split_ifs <;> first | rfl | omega | (congr 1; omega) | skip
    by_cases hi : i < data.length
    · congr 1
      have := @Nat.min_def (data.length - n) src.length
      split_ifs at this <;> omega
    · have := @Nat.min_def (data.length - n) src.length
      rw [List.getElem?_eq_none (by split_ifs at this <;> omega),
        List.getElem?_eq_none (by omega)]
  · cases h

theorem copyAt_length (data src out : List Nat) (n : Nat) (h : copyAt data n src = .ok out) :
    out.length = data.length := by
  unfold copyAt at h
  split at h
  · injection h with h
    subst h
    have := @Nat.min_def src.length (data.length - n)
    simp only [copyBytes, List.length_append, List.length_take, List.length_drop]
    split_ifs at this <;> omega
  · cases h

theorem putUint16At_getElem? (data out : List Nat) (n v : Nat)
    (h : putUint16At data n v = .ok out) (i : Nat) (h0 : i ≠ n) (h1 : i ≠ n + 1) :
    out[i]? = data[i]? ∧ out.length = data.length := by
  unfold putUint16At at h
  split at h
  · split at h
    · injection h with h
      subst h
      simp [List.getElem?_set, Ne.symm h0, Ne.symm h1]
    · cases h
  · cases h

theorem putUint32At_getElem? (data out : List Nat) (n v : Nat)
    (h : putUint32At data n v = .ok out) (i : Nat)
    (h0 : i ≠ n) (h1 : i ≠ n + 1) (h2 : i ≠ n + 2) (h3 : i ≠ n + 3) :
    out[i]? = data[i]? ∧ out.length = data.length := by
  unfold putUint32At at h
  split at h
  · split at h
    · injection h with h
      subst h
      simp [List.getElem?_set, Ne.symm h0, Ne.symm h1, Ne.symm h2, Ne.symm h3]
    · cases h
  · cases h

theorem zeroAtPad_makeBytes (isPad : Nat → Bool) (n : Nat) : zeroAtPad isPad (makeBytes n) := by
  intro i hi _
  simp only [makeBytes, List.length_replicate] at hi
  simp [makeBytes, List.getD_eq_getElem?_getD, List.getElem?_replicate, hi]

/-- The encoding loop keeps every reserved offset zero: it writes whole option
images at offsets `base + 8q`, and an option image is zero at its bytes 6 and 7. -/
theorem marshalTlvMaps_zeroAtPad (isPad : Nat → Bool) (base : Nat)
    (hpad : ∀ i, base ≤ i → isPad i = true → 6 ≤ (i - base) % 8)
    (maps : List TLVTableMap) :
    ∀ (data out : List Nat) (n : Nat), (∃ q, n = base + 8 * q) → zeroAtPad isPad data →
      marshalTlvMaps maps data n = .ok out → zeroAtPad isPad out := by
  induction maps with
  | nil =>
    intro data out n _ hz h
    simp only [marshalTlvMaps] at h
    injection h with h
    exact h ▸ hz
  | cons t rest ih =>
    intro data out n hq hz h
    obtain ⟨q, hq⟩ := hq
    simp only [marshalTlvMaps, tlvTableMap_marshal_eq] at h
    cases hc : copyAt data n t.encode with
    | error p => simp [hc] at h
    | ok mid =>
      simp only [hc] at h
      have hlen : t.encode.length = 8 := rfl
      refine ih mid out (n + t.encode.length) ⟨q + 1, by rw [hlen, hq]; omega⟩ ?_ h
      intro i hi hp
      have hg := copyAt_getElem? data t.encode mid n hc i
      have hl := copyAt_length data t.encode mid n hc
      rw [List.getD_eq_getElem?_getD, hg]
      by_cases h1 : i < n
      · rw [if_pos h1, ← List.getD_eq_getElem?_getD]
        exact hz i (by omega) hp
      · rw [if_neg h1]
        by_cases h2 : i - n < t.encode.length ∧ i < data.length
        · rw [if_pos h2]
          have h6 := hpad i (by omega) hp
          have h7 : i - n = 6 ∨ i - n = 7 := by rw [hlen] at h2; omega
          rcases h7 with h7 | h7 <;> rw [h7] <;> rfl
        · rw [if_neg h2, ← List.getD_eq_getElem?_getD]
          exact hz i (by omega) hp

theorem tlvTableMod_marshal_zeroAtPad (v : TLVTableMod) (data : List Nat)
    (h : v.MarshalBinary = .ok data) : zeroAtPad TLVTableMod.isPad data := by
  simp only [TLVTableMod.MarshalBinary] at h
  cases hc : putUint16At (makeBytes v.Len) 0 v.Command with
  | error p => simp [hc] at h
  | ok mid =>
    simp only [hc] at h
    refine marshalTlvMaps_zeroAtPad TLVTableMod.isPad 8 ?_ v.TlvMaps mid data (2 + 6)
      ⟨0, rfl⟩ ?_ h
    · intro i hi hp
      have h8 : ¬ i < 8 := by omega
      simpa [TLVTableMod.isPad, optionPad, h8, hi] using hp
    · intro i hi hp
      have h0 : i ≠ 0 := by rintro rfl; simp [TLVTableMod.isPad, optionPad] at hp
      have h1 : i ≠ 0 + 1 := by rintro rfl; simp [TLVTableMod.isPad, optionPad] at hp
      obtain ⟨hg, hl⟩ := putUint16At_getElem? _ _ 0 _ hc i h0 h1
      rw [List.getD_eq_getElem?_getD, hg, ← List.getD_eq_getElem?_getD]
      exact zeroAtPad_makeBytes _ _ i (by omega) hp

theorem tlvTableReply_marshal_zeroAtPad (v : TLVTableReply) (data : List Nat)
    (h : v.MarshalBinary = .ok data) : zeroAtPad TLVTableReply.isPad data := by
  simp only [TLVTableReply.MarshalBinary] at h
  cases hc : putUint32At (makeBytes v.Len) 0 v.MaxSpace with
  | error p => simp [hc] at h
  | ok mid =>
    simp only [hc] at h
    cases hd : putUint16At mid 4 v.MaxFields with
    | error p => simp [hd] at h
    | ok mid2 =>
      simp only [hd] at h
      refine marshalTlvMaps_zeroAtPad TLVTableReply.isPad 16 ?_ v.TlvMaps mid2 data
        (4 + 2 + 10) ⟨0, rfl⟩ ?_ h
      · intro i hi hp
        have h16 : ¬ i < 16 := by omega
        simpa [TLVTableReply.isPad, optionPad, h16, hi] using hp
      · intro i hi hp
        have h6 : 6 ≤ i := by
          by_contra hlt
          have : i < 6 := by omega
          have h16 : ¬ 16 ≤ i := by omega
          simp [TLVTableReply.isPad, optionPad, hlt, h16] at hp
        obtain ⟨hg2, hl2⟩ := putUint16At_getElem? _ _ 4 _ hd i (by omega) (by omega)
        obtain ⟨hg1, hl1⟩ := putUint32At_getElem? _ _ 0 _ hc i (by omega) (by omega)
          (by omega) (by omega)
        rw [List.getD_eq_getElem?_getD, hg2, hg1, ← List.getD_eq_getElem?_getD]
        exact zeroAtPad_makeBytes _ _ i (by omega) hp

theorem controllerID_marshal_zeroAtPad (v : ControllerID) (data : List Nat)
    (h : v.MarshalBinary = .ok data) : zeroAtPad ControllerID.isPad data := by
  have he : v.MarshalBinary = .ok [0, 0, 0, 0, 0, 0, (v.ID >>> 8) % 256, v.ID % 256] := rfl
  rw [he] at h
  injection h with h
  subst h
  intro i hi hp
  simp only [List.length_cons, List.length_nil] at hi
  interval_cases i <;> simp_all [ControllerID.isPad]

theorem tlvTableMap_marshal_zeroAtPad (v : TLVTableMap) (data : List Nat)
    (h : v.MarshalBinary = .ok data) : zeroAtPad TLVTableMap.isPad data := by
  rw [tlvTableMap_marshal_eq] at h
  injection h with h
  subst h
  intro i hi hp
  simp only [TLVTableMap.encode, List.length_cons, List.length_nil] at hi
  interval_cases i <;> simp_all [TLVTableMap.isPad, TLVTableMap.encode]

theorem setFlowEviction_marshal_zeroAtPad (v : SetFlowEviction) (data : List Nat)
    (h : v.MarshalBinary = .ok data) : zeroAtPad SetFlowEviction.isPad data := by
  have he : v.MarshalBinary
      = .ok [v.TableID, if v.EvictionEnabled then 1 else 0, 0, 0, 0, 0, 0, 0] := rfl
  rw [he] at h
  injection h with h
  subst h
  intro i hi hp
  simp only [List.length_cons, List.length_nil] at hi
  interval_cases i <;> simp_all [SetFlowEviction.isPad]

theorem getFlowEviction_marshal_zeroAtPad (v : GetFlowEviction) (data : List Nat)
    (h : v.MarshalBinary = .ok data) : zeroAtPad GetFlowEviction.isPad data := by
  have he : v.MarshalBinary = .ok [v.TableID, 0, 0, 0, 0, 0, 0, 0] := rfl
  rw [he] at h
  injection h with h
  subst h
  intro i hi hp
  simp only [List.length_cons, List.length_nil] at hi
  interval_cases i <;> simp_all [GetFlowEviction.isPad]

/-! ## Buffers that differ only at reserved offsets -/

/-- Claim C16 fails for `TLVTableReply`: two 16-byte buffers that differ only at
the reserved offset 6 both decode with nil, and the decoded values differ, because
each keeps its reserved bytes in `reserved`. -/
theorem tlvTableReply_reserved_kept :
    agreeOffPad TLVTableReply.isPad
      [0, 0, 0, 1, 0, 2, 0, 0, 0, 0, 0, 0, 0, 0, 0, 0]
      [0, 0, 0, 1, 0, 2, 9, 0, 0, 0, 0, 0, 0, 0, 0, 0] ∧
    TLVTableReply.UnmarshalBinary {} ⟨[0, 0, 0, 1, 0, 2, 0, 0, 0, 0, 0, 0, 0, 0, 0, 0], []⟩
      = (⟨1, 2, [0, 0, 0, 0, 0, 0, 0, 0, 0, 0], []⟩, .ok) ∧
    TLVTableReply.UnmarshalBinary {} ⟨[0, 0, 0, 1, 0, 2, 9, 0, 0, 0, 0, 0, 0, 0, 0, 0], []⟩
      = (⟨1, 2, [9, 0, 0, 0, 0, 0, 0, 0, 0, 0], []⟩, .ok) ∧
    (TLVTableReply.UnmarshalBinary {}
        ⟨[0, 0, 0, 1, 0, 2, 0, 0, 0, 0, 0, 0, 0, 0, 0, 0], []⟩).1
      ≠ (TLVTableReply.UnmarshalBinary {}
        ⟨[0, 0, 0, 1, 0, 2, 9, 0, 0, 0, 0, 0, 0, 0, 0, 0], []⟩).1 := by
  refine ⟨⟨rfl, by decide⟩, by decide, by decide, by decide⟩

/-- Claim C16 as amended: on two buffers of equal length that differ only at
reserved offsets, `UnmarshalBinary` of `ControllerID`, `TLVTableMap`, `TLVTableMod`,
`SetFlowEviction` and `GetFlowEviction` into fresh values ends the same way with
the same decoded value. For `TLVTableReply` on buffers of at least 16 bytes the two
decodes end the same way with the same `MaxSpace`, `MaxFields` and options, each
keeps bytes 6..15 of its own buffer in `reserved`, and both values encode alike.
Whatever value is encoded, and so either decoded one, the bytes `MarshalBinary`
returns are zero at every reserved offset. -/
theorem decode_ignores_padding (c1 c2 m1 m2 d1 d2 s1 s2 g1 g2 r1 r2 : Slice)
    (hc : agreeOffPad ControllerID.isPad c1.bytes c2.bytes)
    (hm : agreeOffPad TLVTableMap.isPad m1.bytes m2.bytes)
    (hd : agreeOffPad TLVTableMod.isPad d1.bytes d2.bytes)
    (hs : agreeOffPad SetFlowEviction.isPad s1.bytes s2.bytes)
    (hg : agreeOffPad GetFlowEviction.isPad g1.bytes g2.bytes)
    (hr : agreeOffPad TLVTableReply.isPad r1.bytes r2.bytes) (hr16 : 16 ≤ r1.len) :
    (ControllerID.UnmarshalBinary {} c1 = ControllerID.UnmarshalBinary {} c2 ∧
      TLVTableMap.UnmarshalBinary {} m1 = TLVTableMap.UnmarshalBinary {} m2 ∧
      TLVTableMod.UnmarshalBinary {} d1 = TLVTableMod.UnmarshalBinary {} d2 ∧
      SetFlowEviction.UnmarshalBinary {} s1 = SetFlowEviction.UnmarshalBinary {} s2 ∧
      GetFlowEviction.UnmarshalBinary {} g1 = GetFlowEviction.UnmarshalBinary {} g2) ∧
    ((TLVTableReply.UnmarshalBinary {} r1).2 = (TLVTableReply.UnmarshalBinary {} r2).2 ∧
      (TLVTableReply.UnmarshalBinary {} r1).1.MaxSpace
        = (TLVTableReply.UnmarshalBinary {} r2).1.MaxSpace ∧
      (TLVTableReply.UnmarshalBinary {} r1).1.MaxFields
        = (TLVTableReply.UnmarshalBinary {} r2).1.MaxFields ∧
      (TLVTableReply.UnmarshalBinary {} r1).1.TlvMaps
        = (TLVTableReply.UnmarshalBinary {} r2).1.TlvMaps ∧
      (TLVTableReply.UnmarshalBinary {} r1).1.reserved = (r1.bytes.take 16).drop 6 ∧
      (TLVTableReply.UnmarshalBinary {} r2).1.reserved = (r2.bytes.take 16).drop 6 ∧
      (TLVTableReply.UnmarshalBinary {} r1).1.MarshalBinary
        = (TLVTableReply.UnmarshalBinary {} r2).1.MarshalBinary) ∧
    ((∀ (v : ControllerID) (data : List Nat),
        v.MarshalBinary = .ok data → zeroAtPad ControllerID.isPad data) ∧
      (∀ (v : TLVTableMap) (data : List Nat),
        v.MarshalBinary = .ok data → zeroAtPad TLVTableMap.isPad data) ∧
      (∀ (v : TLVTableMod) (data : List Nat),
        v.MarshalBinary = .ok data → zeroAtPad TLVTableMod.isPad data) ∧
      (∀ (v : TLVTableReply) (data : List Nat),
        v.MarshalBinary = .ok data → zeroAtPad TLVTableReply.isPad data) ∧
      (∀ (v : SetFlowEviction) (data : List Nat),
        v.MarshalBinary = .ok data → zeroAtPad SetFlowEviction.isPad data) ∧
      (∀ (v : GetFlowEviction) (data : List Nat),
        v.MarshalBinary = .ok data → zeroAtPad GetFlowEviction.isPad data)) := by
  obtain ⟨q1, q2, q3, q4, q5, q6⟩ := tlvTableReply_unmarshal_congr {} r1 r2 hr hr16
  exact ⟨⟨controllerID_unmarshal_congr _ _ _ hc, tlvTableMap_unmarshal_congr _ _ _ hm,
      tlvTableMod_unmarshal_congr _ _ _ hd, setFlowEviction_unmarshal_congr _ _ _ hs,
      getFlowEviction_unmarshal_congr _ _ _ hg⟩,
    ⟨q1, q2, q3, q4, q5, q6, tlvTableReply_marshal_ignores_reserved _ _ q2 q3 q4⟩,
    ⟨controllerID_marshal_zeroAtPad, tlvTableMap_marshal_zeroAtPad,
      tlvTableMod_marshal_zeroAtPad, tlvTableReply_marshal_zeroAtPad,
      setFlowEviction_marshal_zeroAtPad, getFlowEviction_marshal_zeroAtPad⟩⟩

/-- Instance of the amended claim C16: pairs of buffers that differ at reserved
offsets only, with one option in the `TLVTableMod` and `TLVTableReply` buffers. -/
theorem decode_ignores_padding_witness :
    (ControllerID.UnmarshalBinary {} ⟨[0, 0, 0, 0, 0, 0, 1, 2], []⟩
        = ControllerID.UnmarshalBinary {} ⟨[9, 8, 7, 6, 5, 4, 1, 2], []⟩ ∧
      TLVTableMap.UnmarshalBinary {} ⟨[128, 0, 0, 4, 0, 3, 0, 0], []⟩
        = TLVTableMap.UnmarshalBinary {} ⟨[128, 0, 0, 4, 0, 3, 7, 7], []⟩ ∧
      TLVTableMod.UnmarshalBinary {}
          ⟨[0, 1, 0, 0, 0, 0, 0, 0, 128, 0, 0, 4, 0, 3, 0, 0], []⟩
        = TLVTableMod.UnmarshalBinary {}
          ⟨[0, 1, 5, 5, 5, 5, 5, 5, 128, 0, 0, 4, 0, 3, 7, 7], []⟩ ∧
      SetFlowEviction.UnmarshalBinary {} ⟨[3, 1, 0, 0, 0, 0, 0, 0], []⟩
        = SetFlowEviction.UnmarshalBinary {} ⟨[3, 1, 9, 9, 9, 9, 9, 9], []⟩ ∧
      GetFlowEviction.UnmarshalBinary {} ⟨[3, 0, 0, 0, 0, 0, 0, 0], []⟩
        = GetFlowEviction.UnmarshalBinary {} ⟨[3, 9, 9, 9, 9, 9, 9, 9], []⟩) ∧
    (TLVTableReply.UnmarshalBinary {}
        ⟨[0, 0, 0, 1, 0, 2, 0, 0, 0, 0, 0, 0, 0, 0, 0, 0, 128, 0, 0, 4, 0, 3, 0, 0], []⟩).1.TlvMaps
      = (TLVTableReply.UnmarshalBinary {}
        ⟨[0, 0, 0, 1, 0, 2, 9, 9, 9, 9, 9, 9, 9, 9, 9, 9, 128, 0, 0, 4, 0, 3, 7, 7], []⟩).1.TlvMaps ∧
    (TLVTableReply.UnmarshalBinary {}
        ⟨[0, 0, 0, 1, 0, 2, 0, 0, 0, 0, 0, 0, 0, 0, 0, 0, 128, 0, 0, 4, 0, 3, 0, 0], []⟩).1.MarshalBinary
      = (TLVTableReply.UnmarshalBinary {}
        ⟨[0, 0, 0, 1, 0, 2, 9, 9, 9, 9, 9, 9, 9, 9, 9, 9, 128, 0, 0, 4, 0, 3, 7, 7], []⟩).1.MarshalBinary :=
  have h := decode_ignores_padding
    ⟨[0, 0, 0, 0, 0, 0, 1, 2], []⟩ ⟨[9, 8, 7, 6, 5, 4, 1, 2], []⟩
    ⟨[128, 0, 0, 4, 0, 3, 0, 0], []⟩ ⟨[128, 0, 0, 4, 0, 3, 7, 7], []⟩
    ⟨[0, 1, 0, 0, 0, 0, 0, 0, 128, 0, 0, 4, 0, 3, 0, 0], []⟩
    ⟨[0, 1, 5, 5, 5, 5, 5, 5, 128, 0, 0, 4, 0, 3, 7, 7], []⟩
    ⟨[3, 1, 0, 0, 0, 0, 0, 0], []⟩ ⟨[3, 1, 9, 9, 9, 9, 9, 9], []⟩
    ⟨[3, 0, 0, 0, 0, 0, 0, 0], []⟩ ⟨[3, 9, 9, 9, 9, 9, 9, 9], []⟩
    ⟨[0, 0, 0, 1, 0, 2, 0, 0, 0, 0, 0, 0, 0, 0, 0, 0, 128, 0, 0, 4, 0, 3, 0, 0], []⟩
    ⟨[0, 0, 0, 1, 0, 2, 9, 9, 9, 9, 9, 9, 9, 9, 9, 9, 128, 0, 0, 4, 0, 3, 7, 7], []⟩
    ⟨rfl, by decide⟩ ⟨rfl, by decide⟩ ⟨rfl, by decide⟩ ⟨rfl, by decide⟩ ⟨rfl, by decide⟩
    ⟨rfl, by decide⟩ (by decide)
  ⟨h.1, h.2.1.2.2.2.1, h.2.1.2.2.2.2.2.2⟩

end Openflow13
